import Mathlib

/-!
Shallow embedding of the First Rat rules engine
(`first_rat_local/core`: `enums.py`, `models.py`, `rules.py`, `scoring.py`,
`setup.py`), together with theorems settling the specification claims.

Modelling conventions, used consistently below:
* Python `dict`s are modelled as insertion-ordered association lists
  (a Python dict never holds a duplicate key; where a claim needs that
  fact about an arbitrary model state it appears as a hypothesis).
* Python `set`s are modelled as duplicate-free insertion-ordered lists.
* A raised Python exception is modelled as an explicit error value
  (`Validation.exn` / `PyResult.exn`); a function that raises returns no
  new state, which renders the fact that the caller's state object is
  left untouched by a raising call path of the pure validator.
* Machine integers are `Nat`/`Int`; resource amounts, scores and indices
  are `Nat` exactly where the code keeps them non-negative
  (`Inventory.remove` clamps at 0 with `max`, matching `Nat` subtraction).
* `DomainEvent.timestamp` is wall-clock time in the source; the model
  keeps the written-in value 0 (no claim mentions timestamps).
-/

namespace FirstRat

/-- `enums.Color` (enums.py). -/
inductive Color where
  | GREEN
  | YELLOW
  | RED
  | BLUE
deriving DecidableEq

/-- `Color.value`: the string value of the enum member. -/
def Color.value : Color → String
  | .GREEN => "GREEN"
  | .YELLOW => "YELLOW"
  | .RED => "RED"
  | .BLUE => "BLUE"

/-- `Color(str)` enum construction: succeeds exactly on the four values. -/
def Color.parse : String → Option Color
  | "GREEN" => some .GREEN
  | "YELLOW" => some .YELLOW
  | "RED" => some .RED
  | "BLUE" => some .BLUE
  | _ => none

/-- `enums.Resource` (enums.py). -/
inductive Resource where
  | CHEESE
  | TIN_CAN
  | SODA
  | LIGHTBULB
  | BOTTLECAP
deriving DecidableEq

/-- `Resource.value`. -/
def Resource.value : Resource → String
  | .CHEESE => "CHEESE"
  | .TIN_CAN => "TIN_CAN"
  | .SODA => "SODA"
  | .LIGHTBULB => "LIGHTBULB"
  | .BOTTLECAP => "BOTTLECAP"

/-- `Resource(str)` enum construction. -/
def Resource.parse : String → Option Resource
  | "CHEESE" => some .CHEESE
  | "TIN_CAN" => some .TIN_CAN
  | "SODA" => some .SODA
  | "LIGHTBULB" => some .LIGHTBULB
  | "BOTTLECAP" => some .BOTTLECAP
  | _ => none

/-- `enums.SpaceKind` (enums.py). -/
inductive SpaceKind where
  | RESOURCE
  | SHOP_MOLE
  | SHOP_FROG
  | SHOP_CROW
  | LIGHTBULB_TRACK
  | SHORTCUT
  | HAZARD
  | START
  | LAUNCH_PAD
deriving DecidableEq

/-- `SpaceKind.value`. -/
def SpaceKind.value : SpaceKind → String
  | .RESOURCE => "RESOURCE"
  | .SHOP_MOLE => "SHOP_MOLE"
  | .SHOP_FROG => "SHOP_FROG"
  | .SHOP_CROW => "SHOP_CROW"
  | .LIGHTBULB_TRACK => "LIGHTBULB_TRACK"
  | .SHORTCUT => "SHORTCUT"
  | .HAZARD => "HAZARD"
  | .START => "START"
  | .LAUNCH_PAD => "LAUNCH_PAD"

/-- `SpaceKind(str)` enum construction. -/
def SpaceKind.parse : String → Option SpaceKind
  | "RESOURCE" => some .RESOURCE
  | "SHOP_MOLE" => some .SHOP_MOLE
  | "SHOP_FROG" => some .SHOP_FROG
  | "SHOP_CROW" => some .SHOP_CROW
  | "LIGHTBULB_TRACK" => some .LIGHTBULB_TRACK
  | "SHORTCUT" => some .SHORTCUT
  | "HAZARD" => some .HAZARD
  | "START" => some .START
  | "LAUNCH_PAD" => some .LAUNCH_PAD
  | _ => none

/-- `enums.RocketPart` (enums.py). -/
inductive RocketPart where
  | NOSE
  | TANK
  | ENGINE
  | FIN_A
  | FIN_B
deriving DecidableEq

/-- `RocketPart.value`. -/
def RocketPart.value : RocketPart → String
  | .NOSE => "NOSE"
  | .TANK => "TANK"
  | .ENGINE => "ENGINE"
  | .FIN_A => "FIN_A"
  | .FIN_B => "FIN_B"

/-- `RocketPart(str)` enum construction. -/
def RocketPart.parse : String → Option RocketPart
  | "NOSE" => some .NOSE
  | "TANK" => some .TANK
  | "ENGINE" => some .ENGINE
  | "FIN_A" => some .FIN_A
  | "FIN_B" => some .FIN_B
  | _ => none

/-- `enums.ActionType` value strings, used in history entries. -/
inductive ActionType where
  | MOVE
  | BUY
  | STEAL
  | BUILD_ROCKET
  | DONATE_CHEESE
  | END_TURN
deriving DecidableEq

/-- `ActionType.value`. -/
def ActionType.value : ActionType → String
  | .MOVE => "MOVE"
  | .BUY => "BUY"
  | .STEAL => "STEAL"
  | .BUILD_ROCKET => "BUILD_ROCKET"
  | .DONATE_CHEESE => "DONATE_CHEESE"
  | .END_TURN => "END_TURN"

/-- `enums.DomainEventType` (enums.py), restricted to the members the
engine emits. -/
inductive DomainEventType where
  | RESOURCE_GAINED
  | RESOURCE_SPENT
  | INVENTORY_CHANGED
  | SENT_HOME
  | ON_ROCKET
  | NEW_RAT_GAINED
  | SCORE_CHANGED
  | TURN_ENDED
  | GAME_ENDED
deriving DecidableEq

/-- Python `repr` of a list of strings, as produced by an f-string on a
`list[str]` (single quotes around each element). -/
def pyStrList (l : List String) : String :=
  "[" ++ String.intercalate ", " (l.map (fun x => "\x27" ++ x ++ "\x27")) ++ "]"

/-- Python `repr` of a list of ints, as produced by an f-string. -/
def pyIntList (l : List Int) : String :=
  "[" ++ String.intercalate ", " (l.map toString) ++ "]"

/-- The kind-specific `Space.payload` dict. The engine reads exactly the
keys `resource` (`_process_space_effects`, RESOURCE branch), `amount`
(default 1) and `track_gain` (default 1); a key that is absent in the
Python dict is `none` here. -/
structure Payload where
  resource : Option Resource := none
  amount : Option Nat := none
  track_gain : Option Nat := none
deriving DecidableEq

/-- `models.Space`. -/
structure Space where
  space_id : Nat
  index : Nat
  color : Color
  kind : SpaceKind
  payload : Payload := {}
deriving DecidableEq

/-- `models.Rat`. -/
structure Rat where
  rat_id : String
  owner_id : String
  space_index : Nat
  on_rocket : Bool := false
deriving DecidableEq

/-- Value of key `r` in a resource dict, via `.get(r, 0)`. -/
def getRes : List (Resource × Nat) → Resource → Nat
  | [], _ => 0
  | (a, n) :: t, r => if a = r then n else getRes t r

/-- `res[r] += amount` on a `defaultdict(int)`: update the entry in
place if present, else insert at the end with the added value. -/
def addResEntry : List (Resource × Nat) → Resource → Nat → List (Resource × Nat)
  | [], r, amount => [(r, amount)]
  | (a, n) :: t, r, amount =>
    if a = r then (a, n + amount) :: t else (a, n) :: addResEntry t r amount

/-- The body of `Inventory.remove` on the resource dict:
`res[r] = max(0, res[r] - amount)` followed by `del res[r]` when the new
value is 0.  On a missing key the `defaultdict` read inserts 0 and the
`del` immediately removes it again, so the dict is unchanged. -/
def removeResEntry : List (Resource × Nat) → Resource → Nat → List (Resource × Nat)
  | [], _, _ => []
  | (a, n) :: t, r, amount =>
    if a = r then (if n ≤ amount then t else (a, n - amount) :: t)
    else (a, n) :: removeResEntry t r amount

/-- `res[r] = amount` on a dict (plain assignment, used by
`GameState.from_dict`). -/
def setResEntry : List (Resource × Nat) → Resource → Nat → List (Resource × Nat)
  | [], r, amount => [(r, amount)]
  | (a, n) :: t, r, amount =>
    if a = r then (a, amount) :: t else (a, n) :: setResEntry t r amount

/-- `models.Inventory`.  `res` is the resource dict as an
insertion-ordered association list. -/
structure Inventory where
  capacity : Nat := 3
  res : List (Resource × Nat) := []
  x2_active : Bool := false
  bottlecaps : Nat := 0
deriving DecidableEq

/-- `Inventory.total_resources`: `sum(self.res.values())`. -/
def Inventory.total_resources (inv : Inventory) : Nat :=
  (inv.res.map Prod.snd).sum

/-- `Inventory.can_add`. -/
def Inventory.can_add (inv : Inventory) (amount : Nat) : Bool :=
  inv.total_resources + amount ≤ inv.capacity

/-- `Inventory.add` (no capacity check; no-op for a non-positive amount). -/
def Inventory.add (inv : Inventory) (r : Resource) (amount : Nat) : Inventory :=
  if amount = 0 then inv else { inv with res := addResEntry inv.res r amount }

/-- `Inventory.remove` (clamps at zero, drops emptied entries; no-op for
a non-positive amount). -/
def Inventory.remove (inv : Inventory) (r : Resource) (amount : Nat) : Inventory :=
  if amount = 0 then inv else { inv with res := removeResEntry inv.res r amount }

/-- `Inventory.has`: `self.res.get(resource, 0) >= amount`. -/
def Inventory.has (inv : Inventory) (r : Resource) (amount : Nat) : Bool :=
  amount ≤ getRes inv.res r

/-- `models.Player`.  `tracks` is a `defaultdict(int)` and `built_parts`
a set, both as insertion-ordered lists. -/
structure Player where
  player_id : String
  name : String
  rats : List Rat
  inv : Inventory
  tracks : List (String × Nat) := []
  score : Nat := 0
  built_parts : List RocketPart := []
deriving DecidableEq

/-- `Player.get_rats_on_rocket`. -/
def Player.get_rats_on_rocket (p : Player) : List Rat :=
  p.rats.filter (·.on_rocket)

/-- `Player.get_rats_on_board`. -/
def Player.get_rats_on_board (p : Player) : List Rat :=
  p.rats.filter (fun r => !r.on_rocket)

/-- `tracks.get(name, 0)`. -/
def getTrack : List (String × Nat) → String → Nat
  | [], _ => 0
  | (a, n) :: t, name => if a = name then n else getTrack t name

/-- `tracks[name] += gain` on a `defaultdict(int)`. -/
def addTrack : List (String × Nat) → String → Nat → List (String × Nat)
  | [], name, gain => [(name, gain)]
  | (a, n) :: t, name, gain =>
    if a = name then (a, n + gain) :: t else (a, n) :: addTrack t name gain

/-- `built_parts.add(part)` (set insertion). -/
def addPart (l : List RocketPart) (p : RocketPart) : List RocketPart :=
  if p ∈ l then l else l ++ [p]

/-- `models.Rocket`: the fixed-size dict `{part: builder for part in
RocketPart}`, one field per part, kept in enum declaration order by
the serializer. -/
structure Rocket where
  nose : Option String := none
  tank : Option String := none
  engine : Option String := none
  fin_a : Option String := none
  fin_b : Option String := none
deriving DecidableEq

/-- `rocket.parts[part]` read. -/
def Rocket.get : Rocket → RocketPart → Option String
  | rk, .NOSE => rk.nose
  | rk, .TANK => rk.tank
  | rk, .ENGINE => rk.engine
  | rk, .FIN_A => rk.fin_a
  | rk, .FIN_B => rk.fin_b

/-- `rocket.parts[part] = builder` write. -/
def Rocket.set (rk : Rocket) (part : RocketPart) (b : Option String) : Rocket :=
  match part with
  | .NOSE => { rk with nose := b }
  | .TANK => { rk with tank := b }
  | .ENGINE => { rk with engine := b }
  | .FIN_A => { rk with fin_a := b }
  | .FIN_B => { rk with fin_b := b }

/-- `Rocket.is_part_built`. -/
def Rocket.is_part_built (rk : Rocket) (part : RocketPart) : Bool :=
  (rk.get part).isSome

/-- `Rocket.get_builder`. -/
def Rocket.get_builder (rk : Rocket) (part : RocketPart) : Option String :=
  rk.get part

/-- `Rocket.build_part`. -/
def Rocket.build_part (rk : Rocket) (part : RocketPart) (builder_id : String) : Rocket :=
  rk.set part (some builder_id)

/-- `rocket.parts.items()` in enum declaration order (the dict is created
over `RocketPart` in that order and only updated in place). -/
def Rocket.items (rk : Rocket) : List (RocketPart × Option String) :=
  [(.NOSE, rk.nose), (.TANK, rk.tank), (.ENGINE, rk.engine),
   (.FIN_A, rk.fin_a), (.FIN_B, rk.fin_b)]

/-- `models.Board`.  `shortcuts` is an optional `{from_index: to_index}`
dict. -/
structure Board where
  spaces : List Space
  start_index : Nat
  launch_index : Nat
  shortcuts : Option (List (Nat × Nat)) := none
deriving DecidableEq

/-- `Board.is_within_bounds` (indices are `Nat`, so only the upper bound
is material). -/
def Board.is_within_bounds (b : Board) (index : Nat) : Bool :=
  index < b.spaces.length

/-- `Board.get_space`: `none` models the `IndexError` raise on an
out-of-bounds index. -/
def Board.get_space (b : Board) (index : Nat) : Option Space :=
  b.spaces[index]?

/-- `target_index in shortcuts` lookup (first matching key of the dict). -/
def shortcutLookup : List (Nat × Nat) → Nat → Option Nat
  | [], _ => none
  | (a, v) :: t, k => if a = k then some v else shortcutLookup t k

/-- `Board.next_index`: add the steps, redirect through a shortcut when
the raw target is a shortcut source (`if self.shortcuts and ...`: an
absent or empty dict is falsy and skipped), then clamp to the last
space.  With the board non-empty this matches the Python
`min(target, len(spaces) - 1)` exactly. -/
def Board.next_index (b : Board) (current_index : Nat) (steps : Int) : Nat :=
  if steps ≤ 0 then current_index
  else
    let target := current_index + steps.toNat
    let target :=
      match b.shortcuts with
      | none => target
      | some sc => if sc = [] then target else (shortcutLookup sc target).getD target
    min target (b.spaces.length - 1)

/-- `Board.is_occupied`. -/
def Board.is_occupied (b : Board) (index : Nat) (rats : List Rat) : Bool :=
  if !b.is_within_bounds index then false
  else rats.any (fun r => !r.on_rocket && r.space_index == index)

/-- `Board.get_all_rats_on_board`: concatenation of every player's
on-board rats, in player order. -/
def Board.get_all_rats_on_board (_ : Board) (all_players : List Player) : List Rat :=
  all_players.flatMap Player.get_rats_on_board

/-- Typed payloads of the `DomainEvent`s the engine emits (events.py:
one constructor per `create_*_event` helper actually called by the
resolver and the endgame detector, with exactly its payload keys). -/
inductive EventPayload where
  | resourceGained (resource : String) (amount : Nat) (source : String)
  | resourceSpent (resource : String) (amount : Nat) (purpose : String)
  | inventoryChanged (capacity_change : Int) (x2_activated : Bool) (x2_consumed : Bool)
  | sentHome (rat_id : String) (reason : String)
  | onRocket (rat_id : String)
  | newRatGained (rat_id : String)
  | scoreChanged (points : Nat) (reason : String) (new_total : Nat)
  | turnEnded (round_number : Nat)
  | gameEnded (winner_ids : List String) (final_scores : List (String × Nat)) (trigger : String)
deriving DecidableEq

/-- `events.DomainEvent`.  `timestamp` is wall-clock time in the source
(`__post_init__`); the model keeps the constructed value 0. -/
structure DomainEvent where
  type : DomainEventType
  payload : EventPayload
  actor : String
  timestamp : Nat := 0
deriving DecidableEq

/-- `events.create_resource_gained_event`. -/
def create_resource_gained_event (actor : String) (r : Resource) (amount : Nat)
    (source : String) : DomainEvent :=
  ⟨.RESOURCE_GAINED, .resourceGained r.value amount source, actor, 0⟩

/-- `events.create_resource_spent_event`. -/
def create_resource_spent_event (actor : String) (r : Resource) (amount : Nat)
    (purpose : String) : DomainEvent :=
  ⟨.RESOURCE_SPENT, .resourceSpent r.value amount purpose, actor, 0⟩

/-- `events.create_inventory_changed_event` (defaults
`capacity_change=0`, `x2_activated=False`, `x2_consumed=False`). -/
def create_inventory_changed_event (actor : String) (capacity_change : Int := 0)
    (x2_activated : Bool := false) (x2_consumed : Bool := false) : DomainEvent :=
  ⟨.INVENTORY_CHANGED, .inventoryChanged capacity_change x2_activated x2_consumed, actor, 0⟩

/-- `events.create_sent_home_event`. -/
def create_sent_home_event (actor rat_id reason : String) : DomainEvent :=
  ⟨.SENT_HOME, .sentHome rat_id reason, actor, 0⟩

/-- `events.create_on_rocket_event`. -/
def create_on_rocket_event (actor rat_id : String) : DomainEvent :=
  ⟨.ON_ROCKET, .onRocket rat_id, actor, 0⟩

/-- `events.create_new_rat_gained_event`. -/
def create_new_rat_gained_event (actor rat_id : String) : DomainEvent :=
  ⟨.NEW_RAT_GAINED, .newRatGained rat_id, actor, 0⟩

/-- `events.create_score_changed_event`. -/
def create_score_changed_event (actor : String) (points : Nat) (reason : String)
    (new_total : Nat) : DomainEvent :=
  ⟨.SCORE_CHANGED, .scoreChanged points reason new_total, actor, 0⟩

/-- `events.create_turn_ended_event`. -/
def create_turn_ended_event (actor : String) (round_number : Nat) : DomainEvent :=
  ⟨.TURN_ENDED, .turnEnded round_number, actor, 0⟩

/-- `events.create_game_ended_event` (actor is the literal "system"). -/
def create_game_ended_event (winner_ids : List String)
    (final_scores : List (String × Nat)) (trigger : String) : DomainEvent :=
  ⟨.GAME_ENDED, .gameEnded winner_ids final_scores trigger, "system", 0⟩

/-- `actions.Action`: the closed command variant, one constructor per
`ActionType` with its payload keys.  A `payload.get(key)` that can be
absent or `None` is an `Option`; the string fields keep Python
truthiness (`""` is falsy) visible to the validator. -/
inductive Action where
  | move (moves : List (String × Int))
  | buy (shop_kind : Option SpaceKind) (item : Option String) (payer_rat_id : Option String)
  | steal (shop_kind : Option SpaceKind) (target_item : Option String) (payer_rat_id : Option String)
  | buildRocket (part : Option RocketPart)
  | donateCheese (amount : Option Int)
  | endTurn
deriving DecidableEq

/-- `Action.type`. -/
def Action.type : Action → ActionType
  | .move _ => .MOVE
  | .buy _ _ _ => .BUY
  | .steal _ _ _ => .STEAL
  | .buildRocket _ => .BUILD_ROCKET
  | .donateCheese _ => .DONATE_CHEESE
  | .endTurn => .END_TURN

/-- `config.Config` steal rule entry `{gain, punishment}`. -/
structure StealRule where
  gain : String
  punishment : String
deriving DecidableEq

/-- A `config.lightbulb_track_rewards` entry:
`{"type": "immediate", "points": n}` or `{"type": "passive", "effect": e}`. -/
inductive TrackReward where
  | immediate (points : Nat)
  | passive (effect : String)
deriving DecidableEq

/-- `config.endgame_triggers` dict read through
`.get("fourth_rat_on_rocket", False)` / `.get("eighth_scoring_marker", False)`. -/
structure EndgameTriggers where
  fourth_rat_on_rocket : Bool := false
  eighth_scoring_marker : Bool := false
deriving DecidableEq

/-- `config.scoring_rules` dict read through `.get` with the defaults
used in `scoring.calculate_final_scores`. -/
structure ScoringRules where
  rocket_parts : Bool := true
  bottlecaps : Nat := 1
  lightbulb_track : Bool := true
  remaining_resources : Bool := false
deriving DecidableEq

/-- `config.Config`, restricted to the fields the core engine reads.
`board_layout` entries carry exactly the `Space` fields the board
builder copies. -/
structure Config where
  board_layout : List Space := []
  start_index : Nat := 0
  launch_index : Nat := 59
  starting_rats : Nat := 2
  max_rats : Nat := 4
  starting_inventory_capacity : Nat := 3
  shop_prices : List (SpaceKind × List (Resource × Nat)) := []
  steal_rules : List (SpaceKind × StealRule) := []
  rocket_part_costs : List (RocketPart × List (Resource × Nat)) := []
  rocket_part_scores : List (RocketPart × Nat) := []
  donate_rewards : List (Int × Nat) := []
  lightbulb_track_rewards : List (Nat × TrackReward) := []
  endgame_triggers : EndgameTriggers := {}
  scoring_rules : ScoringRules := {}
deriving DecidableEq

/-- First-match association-list lookup (Python dict `k in d` / `d[k]`). -/
def alistLookup {α β : Type} [DecidableEq α] : List (α × β) → α → Option β
  | [], _ => none
  | (a, v) :: t, k => if a = k then some v else alistLookup t k

/-- `config.rocket_part_scores.get(part, 0)`. -/
def Config.partScore (cfg : Config) (part : RocketPart) : Nat :=
  (alistLookup cfg.rocket_part_scores part).getD 0

/-- The validator's `derived_data` dict, one constructor per action
validator (rules.py). -/
inductive Derived where
  | empty
  | moveData (landing_positions : List (String × Nat)) (landing_color : Color)
      (moving_rats : List (String × Nat × Int))
  | buyData (shop_kind : SpaceKind) (item : String)
      (price : List (Resource × Nat)) (payer_rat : Rat)
  | stealData (shop_kind : SpaceKind) (target_item : String)
      (thief_rat : Rat) (steal_rules : StealRule)
  | buildData (part : RocketPart) (cost : List (Resource × Nat)) (immediate_points : Nat)
  | donateData (amount : Int) (points : Nat)
deriving DecidableEq

/-- The `action` part of a history entry: `GameState.apply` logs
`{type, payload, actor}` for a player action, `scoring.finalize_game`
logs the synthetic `{"type": "GAME_END", "payload": {"trigger": t},
"actor": "system"}` entry. -/
inductive HistAction where
  | player (a : Action) (actor : String)
  | gameEnd (trigger : String)
deriving DecidableEq

/-- One `history` entry `{action, events, derived_data}`. -/
structure HistoryEntry where
  haction : HistAction
  events : List DomainEvent
  derived : Derived
deriving DecidableEq

/-- `models.GameState`. -/
structure GameState where
  board : Board
  players : List Player
  rocket : Rocket
  current_player : Nat := 0
  round : Nat := 1
  phase : String := "MAIN"
  rng_seed : Int := 0
  history : List HistoryEntry := []
  game_over : Bool := false
  winner_ids : Option (List String) := none
deriving DecidableEq

/-- `GameState.get_player_by_id`: first player with the id, or `None`. -/
def GameState.get_player_by_id (s : GameState) (player_id : String) : Option Player :=
  s.players.find? (fun p => p.player_id == player_id)

/-- `GameState.get_all_rats`. -/
def GameState.get_all_rats (s : GameState) : List Rat :=
  s.players.flatMap Player.rats

/-- `GameState.next_player`: advance cyclically; completing a full wrap
to player 0 increments the round.  (The `if not self.players` guard
returns the state unchanged.) -/
def GameState.next_player (s : GameState) : GameState :=
  if s.players = [] then s
  else
    let cur := (s.current_player + 1) % s.players.length
    { s with
      current_player := cur
      round := if cur = 0 then s.round + 1 else s.round }

/-- Replace the first player whose `player_id` matches, applying `f`
(mutation of the object returned by `get_player_by_id`). -/
def updateFirstPlayer : List Player → String → (Player → Player) → List Player
  | [], _, _ => []
  | p :: t, pid, f =>
    if p.player_id = pid then f p :: t else p :: updateFirstPlayer t pid f

/-- Apply `f` to the first player with the given id. -/
def GameState.updatePlayer (s : GameState) (pid : String) (f : Player → Player) : GameState :=
  { s with players := updateFirstPlayer s.players pid f }

/-- Replace the first on-board rat with the given id, applying `f`
(mutation of the object found by
`next(r for r in actor.get_rats_on_board() if r.rat_id == rat_id)`). -/
def updateFirstBoardRat : List Rat → String → (Rat → Rat) → List Rat
  | [], _, _ => []
  | r :: t, rid, f =>
    if !r.on_rocket ∧ r.rat_id = rid then f r :: t
    else r :: updateFirstBoardRat t rid f

/-- First on-board rat with the given id
(`next((r for r in actor.get_rats_on_board() if r.rat_id == id), None)`). -/
def Player.findBoardRat (p : Player) (rid : String) : Option Rat :=
  p.get_rats_on_board.find? (fun r => r.rat_id == rid)

/-- Result of a validator call (rules.py returns
`(is_valid, error_message, derived_data)`; the code pairs `False`
always with a message and `True` with `None`).  `exn` models an
exception escaping the validator (e.g. `IndexError` from
`current_player_obj` or `get_space`), as opposed to a rejection. -/
inductive Validation (α : Type) where
  | ok (a : α)
  | reject (msg : String)
  | exn (msg : String)
deriving DecidableEq

/-- The move-count and step-range checks of
`ActionValidator.validate_move` (1 rat: 1-5 steps; 2-4 rats: each 1-3
steps), reporting the first offending entry's message. -/
def checkMoveShape (moves : List (String × Int)) : Option String :=
  match moves with
  | [(_, steps)] =>
    if 1 ≤ steps ∧ steps ≤ 5 then none
    else some ("Single rat must move 1-5 steps, got " ++ toString steps)
  | _ =>
    if 2 ≤ moves.length ∧ moves.length ≤ 4 then
      match moves.find? (fun m => decide ¬(1 ≤ m.2 ∧ m.2 ≤ 3)) with
      | some (rid, steps) =>
        some ("Multiple rats must each move 1-3 steps, rat " ++ rid ++ " moves " ++ toString steps)
      | none => none
    else some ("Must move 1 rat or 2-4 rats, got " ++ toString moves.length)

/-- The rat-resolution loop of `validate_move`: each named rat must be
one of the actor's on-board rats; the first missing one rejects. -/
def resolveMovingRats (board_rats : List Rat) :
    List (String × Int) → Except String (List (Rat × Int))
  | [] => .ok []
  | (rid, steps) :: rest =>
    match board_rats.find? (fun r => r.rat_id == rid) with
    | none => .error ("Rat " ++ rid ++ " not found or not on board")
    | some rat =>
      match resolveMovingRats board_rats rest with
      | .error msg => .error msg
      | .ok tail => .ok ((rat, steps) :: tail)

/-- The landing-position loop of `validate_move`: landing index via
`board.next_index` and the landing space's color via `board.get_space`
(whose `IndexError` is `none`). -/
def computeLandings (b : Board) : List (Rat × Int) → Option (List (String × Nat × Color))
  | [] => some []
  | (rat, steps) :: rest =>
    let new_index := b.next_index rat.space_index steps
    match b.get_space new_index with
    | none => none
    | some landing_space =>
      (computeLandings b rest).map (fun tail => (rat.rat_id, new_index, landing_space.color) :: tail)

/-- The occupation-conflict loop of `validate_move`: for each landing
position, any rat at that index whose id differs from the moving rat's
own id causes rejection (the code excludes only the rat itself, not
the other rats of the same move). -/
def occupancyCheck (all_rats : List Rat) : List (String × Nat) → Option String
  | [] => none
  | (rid, new_index) :: rest =>
    match all_rats.find? (fun r => decide (r.space_index = new_index ∧ ¬(r.rat_id = rid))) with
    | some occupier =>
      some ("Space " ++ toString new_index ++ " is occupied by rat " ++ occupier.rat_id)
    | none => occupancyCheck all_rats rest

/-- The color-mismatch rejection message of `validate_move`
(an f-string rendering of the Python list of color value strings). -/
def colorMismatchMsg (landing_colors : List Color) : String :=
  "All rats must land on same color spaces, got: " ++
    pyStrList (landing_colors.map Color.value)

/-- `ActionValidator.validate_move` (rules.py).  The method's config is
unread: the step ranges are hard-coded.  `exn`s model the uncaught
`AttributeError` on a `None` actor and `IndexError` from `get_space`
on an empty board. -/
def validateMove (s : GameState) (moves : List (String × Int)) (actor_id : String) :
    Validation Derived :=
  if moves = [] then .reject "No moves specified"
  else
    match s.get_player_by_id actor_id with
    | none => .exn "AttributeError: NoneType object has no attribute get_rats_on_board"
    | some actor =>
      let board_rats := actor.get_rats_on_board
      let all_rats := s.board.get_all_rats_on_board s.players
      match checkMoveShape moves with
      | some msg => .reject msg
      | none =>
        match resolveMovingRats board_rats moves with
        | .error msg => .reject msg
        | .ok moving_rats =>
          match computeLandings s.board moving_rats with
          | none => .exn "IndexError: Space index is out of bounds"
          | some landings =>
            match landings with
            | [] => .exn "IndexError: list index out of range"
            | l0 :: ls =>
              let landing_positions := (l0 :: ls).map (fun l => (l.1, l.2.1))
              let landing_colors := (l0 :: ls).map (fun l => l.2.2)
              if (ls.map (fun l => l.2.2)).any (fun c => decide ¬(c = l0.2.2)) then
                .reject (colorMismatchMsg landing_colors)
              else
                match occupancyCheck all_rats landing_positions with
                | some msg => .reject msg
                | none =>
                  if (landing_positions.map (·.2)).Nodup then
                    .ok (.moveData landing_positions l0.2.2
                      (moving_rats.map (fun m => (m.1.rat_id, m.1.space_index, m.2))))
                  else .reject "Multiple rats cannot land on the same space"

/-- The affordability loop shared by `validate_buy` and
`validate_build`: the first priced resource the actor lacks rejects. -/
def affordFail (actor : Player) (price : List (Resource × Nat)) : Option String :=
  match price.find? (fun rc => !actor.inv.has rc.1 rc.2) with
  | some (r, cost) =>
    some ("Not enough " ++ r.value ++ " (need " ++ toString cost ++ ", have " ++
      toString (getRes actor.inv.res r) ++ ")")
  | none => none

/-- `ActionValidator.validate_buy` (rules.py).  The
`not all([shop_kind, item, payer_rat_id])` truthiness check treats a
missing key and an empty string alike. -/
def validateBuy (cfg : Config) (s : GameState) (shop_kind : Option SpaceKind)
    (item payer_rat_id : Option String) (actor_id : String) : Validation Derived :=
  match shop_kind, item, payer_rat_id with
  | some sk, some it, some pr =>
    if it = "" ∨ pr = "" then .reject "Missing required fields for buy action"
    else
      match s.get_player_by_id actor_id with
      | none => .exn "AttributeError: NoneType object has no attribute get_rats_on_board"
      | some actor =>
        match actor.findBoardRat pr with
        | none => .reject ("Rat " ++ pr ++ " not found or not on board")
        | some payer_rat =>
          match s.board.get_space payer_rat.space_index with
          | none => .exn "IndexError: Space index is out of bounds"
          | some rat_space =>
            if ¬(rat_space.kind = sk) then
              .reject ("Rat " ++ pr ++ " is not at a " ++ sk.value ++ " shop")
            else
              match alistLookup cfg.shop_prices sk with
              | none => .reject ("No prices configured for " ++ sk.value)
              | some price =>
                if sk = .SHOP_MOLE ∧ it = "capacity" then
                  match affordFail actor price with
                  | some msg => .reject msg
                  | none => .ok (.buyData sk it price payer_rat)
                else if sk = .SHOP_FROG ∧ it = "x2" then
                  if actor.inv.x2_active then .reject "X2 effect is already active"
                  else
                    match affordFail actor price with
                    | some msg => .reject msg
                    | none => .ok (.buyData sk it price payer_rat)
                else if sk = .SHOP_CROW ∧ it = "bottlecap" then
                  match affordFail actor price with
                  | some msg => .reject msg
                  | none => .ok (.buyData sk it price payer_rat)
                else .reject ("Invalid item " ++ it ++ " for shop " ++ sk.value)
  | _, _, _ => .reject "Missing required fields for buy action"

/-- The `valid_items` table of `validate_steal`
(`.get(shop_kind, [])`). -/
def validStealItems : SpaceKind → List String
  | .SHOP_MOLE => ["capacity"]
  | .SHOP_FROG => ["x2"]
  | .SHOP_CROW => ["bottlecap"]
  | _ => []

/-- `ActionValidator.validate_steal` (rules.py). -/
def validateSteal (cfg : Config) (s : GameState) (shop_kind : Option SpaceKind)
    (target_item payer_rat_id : Option String) (actor_id : String) : Validation Derived :=
  match shop_kind, target_item, payer_rat_id with
  | some sk, some it, some pr =>
    if it = "" ∨ pr = "" then .reject "Missing required fields for steal action"
    else
      match s.get_player_by_id actor_id with
      | none => .exn "AttributeError: NoneType object has no attribute get_rats_on_board"
      | some actor =>
        match actor.findBoardRat pr with
        | none => .reject ("Rat " ++ pr ++ " not found or not on board")
        | some thief_rat =>
          match s.board.get_space thief_rat.space_index with
          | none => .exn "IndexError: Space index is out of bounds"
          | some rat_space =>
            if ¬(rat_space.kind = sk) then
              .reject ("Rat " ++ pr ++ " is not at a " ++ sk.value ++ " shop")
            else
              match alistLookup cfg.steal_rules sk with
              | none => .reject ("Cannot steal from " ++ sk.value)
              | some sr =>
                if ¬(it ∈ validStealItems sk) then
                  .reject ("Cannot steal " ++ it ++ " from " ++ sk.value)
                else if sk = .SHOP_FROG ∧ it = "x2" ∧ actor.inv.x2_active then
                  .reject "X2 effect is already active"
                else .ok (.stealData sk it thief_rat sr)
  | _, _, _ => .reject "Missing required fields for steal action"

/-- `ActionValidator.validate_build` (rules.py).  The `isinstance`
check is vacuous in the typed model. -/
def validateBuild (cfg : Config) (s : GameState) (part : Option RocketPart)
    (actor_id : String) : Validation Derived :=
  match part with
  | none => .reject "No rocket part specified"
  | some part =>
    if s.rocket.is_part_built part then
      .reject ("Rocket part " ++ part.value ++ " is already built by " ++
        (s.rocket.get_builder part).getD "None")
    else
      match alistLookup cfg.rocket_part_costs part with
      | none => .reject ("No cost configured for rocket part " ++ part.value)
      | some required_resources =>
        match s.get_player_by_id actor_id with
        | none => .exn "AttributeError: NoneType object has no attribute inv"
        | some actor =>
          match affordFail actor required_resources with
          | some msg => .reject msg
          | none => .ok (.buildData part required_resources (cfg.partScore part))

/-- `ActionValidator.validate_donate` (rules.py).  The `isinstance(int)`
check is vacuous in the typed model; `amount < 1` is kept. -/
def validateDonate (cfg : Config) (s : GameState) (amount : Option Int)
    (actor_id : String) : Validation Derived :=
  match amount with
  | none => .reject "No donation amount specified"
  | some amount =>
    if amount < 1 then .reject ("Invalid donation amount: " ++ toString amount)
    else
      match alistLookup cfg.donate_rewards amount with
      | none =>
        .reject ("Invalid donation amount " ++ toString amount ++ ", valid amounts: " ++
          pyIntList (cfg.donate_rewards.map Prod.fst))
      | some points =>
        match s.get_player_by_id actor_id with
        | none => .exn "AttributeError: NoneType object has no attribute inv"
        | some actor =>
          if !actor.inv.has .CHEESE amount.toNat then
            .reject ("Not enough cheese (need " ++ toString amount ++ ", have " ++
              toString (getRes actor.inv.res .CHEESE) ++ ")")
          else .ok (.donateData amount points)

/-- `ActionValidator.validate` (rules.py): the three universal checks
(actor exists, actor is the current player, game not over — in that
order), then per-action dispatch.  The handler map covers every
`ActionType`, so the "Unknown action type" branch is unreachable in
the typed model.  `current_player_obj`'s `IndexError` is an `exn`. -/
def validate (cfg : Config) (s : GameState) (a : Action) (actor_id : String) :
    Validation Derived :=
  match s.get_player_by_id actor_id with
  | none => .reject ("Player " ++ actor_id ++ " not found")
  | some _ =>
    match s.players[s.current_player]? with
    | none => .exn "IndexError: Invalid current player index"
    | some cur =>
      if ¬(cur.player_id = actor_id) then
        .reject ("It\x27s not " ++ actor_id ++ "\x27s turn")
      else if s.game_over then .reject "Game is already over"
      else
        match a with
        | .move moves => validateMove s moves actor_id
        | .buy sk it pr => validateBuy cfg s sk it pr actor_id
        | .steal sk it pr => validateSteal cfg s sk it pr actor_id
        | .buildRocket part => validateBuild cfg s part actor_id
        | .donateCheese amount => validateDonate cfg s amount actor_id
        | .endTurn => .ok .empty

/-- A per-player entry of `scoring.calculate_final_scores`. -/
structure Breakdown where
  player_name : String
  current_score : Nat
  rocket_parts_score : Nat
  bottlecaps_score : Nat
  lightbulb_track_score : Nat
  remaining_resources_score : Nat
  rats_on_rocket_count : Nat
  total_score : Nat
deriving DecidableEq

/-- One player's breakdown (loop body of `calculate_final_scores`):
rocket-part immediate scores when `scoring_rules["rocket_parts"]`
(default on), bottlecaps times the multiplier when it is positive,
lightbulb track level times the fixed 2 points per level when enabled,
and half the remaining resource units when enabled. -/
def breakdownOf (cfg : Config) (p : Player) : Breakdown :=
  let rocket_parts_score :=
    if cfg.scoring_rules.rocket_parts then (p.built_parts.map cfg.partScore).sum else 0
  let bottlecap_multiplier := cfg.scoring_rules.bottlecaps
  let bottlecaps_score :=
    if 0 < bottlecap_multiplier then p.inv.bottlecaps * bottlecap_multiplier else 0
  let lightbulb_track_score :=
    if cfg.scoring_rules.lightbulb_track then getTrack p.tracks "lightbulb" * 2 else 0
  let remaining_resources_score :=
    if cfg.scoring_rules.remaining_resources then p.inv.total_resources / 2 else 0
  { player_name := p.name
    current_score := p.score
    rocket_parts_score := rocket_parts_score
    bottlecaps_score := bottlecaps_score
    lightbulb_track_score := lightbulb_track_score
    remaining_resources_score := remaining_resources_score
    rats_on_rocket_count := p.get_rats_on_rocket.length
    total_score := p.score + rocket_parts_score + bottlecaps_score +
      lightbulb_track_score + remaining_resources_score }

/-- `scoring.calculate_final_scores`: the `player_id → breakdown` dict
in player order (player ids are unique in every engine-built state). -/
def calculate_final_scores (s : GameState) (cfg : Config) : List (String × Breakdown) :=
  s.players.map (fun p => (p.player_id, breakdownOf cfg p))

/-- `scoring.determine_winners`.  Python's `max` raises on an empty
dict; the model folds from 0 and returns `[]` there (the engine only
reaches this with at least one player). -/
def determine_winners (bd : List (String × Breakdown)) : List String :=
  let max_score := (bd.map (fun e => e.2.total_score)).foldl max 0
  let tied_players := bd.filter (fun e => e.2.total_score == max_score)
  if tied_players.length = 1 then tied_players.map Prod.fst
  else
    let max_rats := (tied_players.map (fun e => e.2.rats_on_rocket_count)).foldl max 0
    (tied_players.filter (fun e => e.2.rats_on_rocket_count == max_rats)).map Prod.fst

/-- `scoring.check_endgame`: the config-gated endgame predicate (reads
`config.endgame_triggers`; not called by the resolver path). -/
def check_endgame (s : GameState) (cfg : Config) : Bool :=
  (cfg.endgame_triggers.fourth_rat_on_rocket &&
    s.players.any (fun p => decide (4 ≤ p.get_rats_on_rocket.length))) ||
  (cfg.endgame_triggers.eighth_scoring_marker &&
    decide (8 ≤ (s.players.map (fun p => p.built_parts.length)).sum))

/-- The results dict built by `scoring.finalize_game`. -/
structure GameResults where
  trigger : String
  winner_ids : List String
  scoring_breakdown : List (String × Breakdown)
  final_scores : List (String × Nat)
  game_ended_event : DomainEvent
deriving DecidableEq

/-- `scoring.finalize_game`: compute final scores and winners, freeze
the game (`game_over`, `winner_ids`) and append the synthetic
"GAME_END" history entry. -/
def finalize_game (s : GameState) (cfg : Config) (trigger : String) :
    GameState × GameResults :=
  let scoring_breakdown := calculate_final_scores s cfg
  let winner_ids := determine_winners scoring_breakdown
  let final_scores := scoring_breakdown.map (fun e => (e.1, e.2.total_score))
  let game_ended_event := create_game_ended_event winner_ids final_scores trigger
  let entry : HistoryEntry := ⟨.gameEnd trigger, [game_ended_event], .empty⟩
  ({ s with
      game_over := true
      winner_ids := some winner_ids
      history := s.history ++ [entry] },
   ⟨trigger, winner_ids, scoring_breakdown, final_scores, game_ended_event⟩)

/-- `scoring.check_and_trigger_endgame`: the endgame check the resolver
runs after every resolved action.  It does NOT read
`config.endgame_triggers`: both conditions are checked
unconditionally, fourth-rat first. -/
def check_and_trigger_endgame (s : GameState) (cfg : Config) :
    Option (GameState × GameResults) :=
  if s.game_over then none
  else if s.players.any (fun p => decide (4 ≤ p.get_rats_on_rocket.length)) then
    some (finalize_game s cfg "fourth_rat_on_rocket")
  else if 8 ≤ (s.players.map (fun p => p.built_parts.length)).sum then
    some (finalize_game s cfg "eighth_scoring_marker")
  else none

/-- A resolver call's outcome: `exn` models an uncaught Python
exception (`KeyError`, `StopIteration`, `AttributeError`,
`IndexError`, `ValueError`); as in the source, a raise hands no new
state to the caller. -/
inductive PyResult (α : Type) where
  | ok (a : α)
  | exn (msg : String)
deriving DecidableEq

/-- `EffectResolver._process_space_effects` (rules.py).  `rat` is the
value held by the resolver's rat alias at call time (its position
already updated); mutations of the aliased objects are rendered as
updates of the first matching player / first matching on-board rat. -/
def processSpaceEffects (cfg : Config) (s : GameState) (actor_id : String)
    (rat : Rat) (space : Space) : PyResult (GameState × List DomainEvent) :=
  match space.kind with
  | .RESOURCE =>
    match space.payload.resource with
    | none => .exn "ValueError: None is not a valid Resource"
    | some resource_type =>
      let base_amount := space.payload.amount.getD 1
      match s.get_player_by_id actor_id with
      | none => .exn "AttributeError: NoneType object has no attribute inv"
      | some actor0 =>
        let x2 := actor0.inv.x2_active
        let actual_amount := if x2 then base_amount * 2 else base_amount
        let s1 :=
          if x2 then
            s.updatePlayer actor_id (fun p => { p with inv := { p.inv with x2_active := false } })
          else s
        let ev1 : List DomainEvent :=
          if x2 then [create_inventory_changed_event actor_id 0 false true] else []
        match s1.get_player_by_id actor_id with
        | none => .exn "AttributeError: NoneType object has no attribute inv"
        | some actor =>
          if actor.inv.can_add actual_amount then
            let s2 := s1.updatePlayer actor_id
              (fun p => { p with inv := p.inv.add resource_type actual_amount })
            .ok (s2, ev1 ++ [create_resource_gained_event actor_id resource_type actual_amount "space"])
          else
            let available_space := actor.inv.capacity - actor.inv.total_resources
            if 0 < available_space then
              let s2 := s1.updatePlayer actor_id
                (fun p => { p with inv := p.inv.add resource_type available_space })
              .ok (s2, ev1 ++ [create_resource_gained_event actor_id resource_type available_space "space"])
            else .ok (s1, ev1)
  | .LIGHTBULB_TRACK =>
    let track_gain := space.payload.track_gain.getD 1
    match s.get_player_by_id actor_id with
    | none => .exn "AttributeError: NoneType object has no attribute tracks"
    | some _ =>
      let s1 := s.updatePlayer actor_id
        (fun p => { p with tracks := addTrack p.tracks "lightbulb" track_gain })
      match s1.get_player_by_id actor_id with
      | none => .exn "AttributeError: NoneType object has no attribute tracks"
      | some actor =>
        let new_level := getTrack actor.tracks "lightbulb"
        match alistLookup cfg.lightbulb_track_rewards new_level with
        | some (.immediate points) =>
          let s2 := s1.updatePlayer actor_id (fun p => { p with score := p.score + points })
          match s2.get_player_by_id actor_id with
          | none => .exn "AttributeError: NoneType object has no attribute score"
          | some actor2 =>
            .ok (s2, [create_score_changed_event actor_id points
              ("lightbulb_track_level_" ++ toString new_level) actor2.score])
        | _ => .ok (s1, [])
  | .LAUNCH_PAD =>
    if rat.on_rocket then .ok (s, [])
    else
      let s1 := s.updatePlayer actor_id (fun p =>
        { p with rats := updateFirstBoardRat p.rats rat.rat_id (fun r => { r with on_rocket := true }) })
      let ev := [create_on_rocket_event actor_id rat.rat_id]
      match s1.get_player_by_id actor_id with
      | none => .exn "AttributeError: NoneType object has no attribute rats"
      | some actor =>
        if actor.rats.length < cfg.max_rats then
          let new_rat_id := actor_id ++ "_rat_" ++ toString (actor.rats.length + 1)
          let s2 := s1.updatePlayer actor_id (fun p =>
            { p with rats := p.rats ++ [⟨new_rat_id, actor_id, s.board.start_index, false⟩] })
          .ok (s2, ev ++ [create_new_rat_gained_event actor_id new_rat_id])
        else .ok (s1, ev)
  | _ => .ok (s, [])

/-- One iteration of the `resolve_move` loop: find the rat
(`StopIteration` if missing), recompute its landing index from its
position at that moment, set the position, process the landing space.
The returned `Nat` is the recomputed landing index (ghost data
recording the loop's `new_index` local, used to state the
validator/resolver agreement claim). -/
def resolveOneMove (cfg : Config) (s : GameState) (actor_id rid : String)
    (steps : Int) : PyResult (GameState × List DomainEvent × Nat) :=
  match s.get_player_by_id actor_id with
  | none => .exn "AttributeError: NoneType object has no attribute get_rats_on_board"
  | some actor =>
    match actor.findBoardRat rid with
    | none => .exn "StopIteration"
    | some rat =>
      let new_index := s.board.next_index rat.space_index steps
      let s1 := s.updatePlayer actor_id (fun p =>
        { p with rats := updateFirstBoardRat p.rats rid (fun r => { r with space_index := new_index }) })
      match s1.board.get_space new_index with
      | none => .exn "IndexError: Space index is out of bounds"
      | some landing_space =>
        match processSpaceEffects cfg s1 actor_id { rat with space_index := new_index } landing_space with
        | .exn m => .exn m
        | .ok (s2, space_events) => .ok (s2, space_events, new_index)

/-- The `resolve_move` loop over the submitted moves, in submission
order, threading the state and collecting events and the trace of
recomputed landing indices. -/
def resolveMoveGo (cfg : Config) (actor_id : String) :
    GameState → List (String × Int) →
    PyResult (GameState × List DomainEvent × List (String × Nat))
  | s, [] => .ok (s, [], [])
  | s, (rid, steps) :: rest =>
    match resolveOneMove cfg s actor_id rid steps with
    | .exn m => .exn m
    | .ok (s1, evts, new_index) =>
      match resolveMoveGo cfg actor_id s1 rest with
      | .exn m => .exn m
      | .ok (s2, evts2, trace) => .ok (s2, evts ++ evts2, (rid, new_index) :: trace)

/-- `EffectResolver.resolve_move` (rules.py). -/
def resolve_move (cfg : Config) (s : GameState) (moves : List (String × Int))
    (actor_id : String) : PyResult (GameState × List DomainEvent × List (String × Nat)) :=
  resolveMoveGo cfg actor_id s moves

/-- `EffectResolver.resolve_buy` (rules.py): spend the configured price
(one resource-spent event per priced resource), then apply the
shop-specific gain.  `payer_rat_id` is unread by the resolver. -/
def resolve_buy (cfg : Config) (s : GameState) (shop_kind : Option SpaceKind)
    (item : Option String) (actor_id : String) : PyResult (GameState × List DomainEvent) :=
  match shop_kind with
  | none => .exn "KeyError: None"
  | some sk =>
    match alistLookup cfg.shop_prices sk with
    | none => .exn "KeyError"
    | some price =>
      match s.get_player_by_id actor_id with
      | none => .exn "AttributeError: NoneType object has no attribute inv"
      | some _ =>
        let itemStr := item.getD "None"
        let s1 := price.foldl
          (fun st rc => st.updatePlayer actor_id (fun p => { p with inv := p.inv.remove rc.1 rc.2 })) s
        let spend_events := price.map
          (fun rc => create_resource_spent_event actor_id rc.1 rc.2 ("buy_" ++ itemStr))
        if sk = .SHOP_MOLE ∧ item = some "capacity" then
          let s2 := s1.updatePlayer actor_id
            (fun p => { p with inv := { p.inv with capacity := p.inv.capacity + 1 } })
          .ok (s2, spend_events ++ [create_inventory_changed_event actor_id 1 false false])
        else if sk = .SHOP_FROG ∧ item = some "x2" then
          let s2 := s1.updatePlayer actor_id
            (fun p => { p with inv := { p.inv with x2_active := true } })
          .ok (s2, spend_events ++ [create_inventory_changed_event actor_id 0 true false])
        else if sk = .SHOP_CROW ∧ item = some "bottlecap" then
          let s2 := s1.updatePlayer actor_id
            (fun p => { p with inv := { p.inv with bottlecaps := p.inv.bottlecaps + 1 } })
          .ok (s2, spend_events ++ [create_inventory_changed_event actor_id 0 false false])
        else .ok (s1, spend_events)

/-- `EffectResolver.resolve_steal` (rules.py): apply the shop gain with
no cost, then unconditionally send the thief rat back to the start. -/
def resolve_steal (cfg : Config) (s : GameState) (shop_kind : Option SpaceKind)
    (target_item : Option String) (payer_rat_id : Option String)
    (actor_id : String) : PyResult (GameState × List DomainEvent) :=
  match s.get_player_by_id actor_id with
  | none => .exn "AttributeError: NoneType object has no attribute get_rats_on_board"
  | some actor =>
    match payer_rat_id with
    | none => .exn "StopIteration"
    | some pr =>
      match actor.findBoardRat pr with
      | none => .exn "StopIteration"
      | some _ =>
        let gain : GameState × List DomainEvent :=
          if shop_kind = some .SHOP_MOLE ∧ target_item = some "capacity" then
            (s.updatePlayer actor_id
              (fun p => { p with inv := { p.inv with capacity := p.inv.capacity + 1 } }),
             [create_inventory_changed_event actor_id 1 false false])
          else if shop_kind = some .SHOP_FROG ∧ target_item = some "x2" then
            (s.updatePlayer actor_id
              (fun p => { p with inv := { p.inv with x2_active := true } }),
             [create_inventory_changed_event actor_id 0 true false])
          else if shop_kind = some .SHOP_CROW ∧ target_item = some "bottlecap" then
            (s.updatePlayer actor_id
              (fun p => { p with inv := { p.inv with bottlecaps := p.inv.bottlecaps + 1 } }),
             [create_inventory_changed_event actor_id 0 false false])
          else (s, [])
        let s2 := gain.1.updatePlayer actor_id (fun p =>
          { p with rats := (updateFirstBoardRat p.rats pr
              (fun r => { r with space_index := s.board.start_index })) })
        .ok (s2, gain.2 ++ [create_sent_home_event actor_id pr "theft"])

/-- `EffectResolver.resolve_build` (rules.py). -/
def resolve_build (cfg : Config) (s : GameState) (part : Option RocketPart)
    (actor_id : String) : PyResult (GameState × List DomainEvent) :=
  match part with
  | none => .exn "KeyError: None"
  | some part =>
    match alistLookup cfg.rocket_part_costs part with
    | none => .exn "KeyError"
    | some cost =>
      let immediate_points := cfg.partScore part
      match s.get_player_by_id actor_id with
      | none => .exn "AttributeError: NoneType object has no attribute inv"
      | some _ =>
        let s1 := cost.foldl
          (fun st rc => st.updatePlayer actor_id (fun p => { p with inv := p.inv.remove rc.1 rc.2 })) s
        let spend_events := cost.map
          (fun rc => create_resource_spent_event actor_id rc.1 rc.2 ("build_" ++ part.value))
        let s2 := { s1 with rocket := s1.rocket.build_part part actor_id }
        let s3 := s2.updatePlayer actor_id
          (fun p => { p with built_parts := addPart p.built_parts part })
        if 0 < immediate_points then
          let s4 := s3.updatePlayer actor_id (fun p => { p with score := p.score + immediate_points })
          match s4.get_player_by_id actor_id with
          | none => .exn "AttributeError: NoneType object has no attribute score"
          | some actor4 =>
            .ok (s4, spend_events ++ [create_score_changed_event actor_id immediate_points
              ("build_" ++ part.value) actor4.score])
        else .ok (s3, spend_events)

/-- `EffectResolver.resolve_donate` (rules.py). -/
def resolve_donate (cfg : Config) (s : GameState) (amount : Option Int)
    (actor_id : String) : PyResult (GameState × List DomainEvent) :=
  match amount with
  | none => .exn "KeyError: None"
  | some amount =>
    match alistLookup cfg.donate_rewards amount with
    | none => .exn "KeyError"
    | some points =>
      match s.get_player_by_id actor_id with
      | none => .exn "AttributeError: NoneType object has no attribute inv"
      | some _ =>
        let s1 := s.updatePlayer actor_id
          (fun p => { p with inv := p.inv.remove .CHEESE amount.toNat })
        let s2 := s1.updatePlayer actor_id (fun p => { p with score := p.score + points })
        match s2.get_player_by_id actor_id with
        | none => .exn "AttributeError: NoneType object has no attribute score"
        | some actor2 =>
          .ok (s2, [create_resource_spent_event actor_id .CHEESE amount.toNat "donation",
            create_score_changed_event actor_id points
              ("donate_" ++ toString amount ++ "_cheese") actor2.score])

/-- `EffectResolver.resolve_end_turn` (rules.py): turn-ended event with
the pre-advance round number, then advance the player cursor. -/
def resolve_end_turn (s : GameState) (actor_id : String) :
    PyResult (GameState × List DomainEvent) :=
  .ok (s.next_player, [create_turn_ended_event actor_id s.round])

/-- `EffectResolver.apply` (rules.py): dispatch to the per-action
resolver, then run `check_and_trigger_endgame`, appending its
game-ended event when the game ends. -/
def resolverApply (cfg : Config) (s : GameState) (a : Action) (actor_id : String) :
    PyResult (GameState × List DomainEvent) :=
  let base : PyResult (GameState × List DomainEvent) :=
    match a with
    | .move moves =>
      match resolve_move cfg s moves actor_id with
      | .exn m => .exn m
      | .ok (s', events, _) => .ok (s', events)
    | .buy sk it _ => resolve_buy cfg s sk it actor_id
    | .steal sk it pr => resolve_steal cfg s sk it pr actor_id
    | .buildRocket part => resolve_build cfg s part actor_id
    | .donateCheese amount => resolve_donate cfg s amount actor_id
    | .endTurn => resolve_end_turn s actor_id
  match base with
  | .exn m => .exn m
  | .ok (s', events) =>
    match check_and_trigger_endgame s' cfg with
    | some (s2, results) => .ok (s2, events ++ [results.game_ended_event])
    | none => .ok (s', events)

/-- The per-player part of `GameState._check_invariants`: inventory
total vs capacity, then on-board rat positions.  The negative-count
and negative-score checks are vacuous over `Nat`. -/
def playerInvariantFail (b : Board) (p : Player) : Option String :=
  if p.inv.capacity < p.inv.total_resources then
    some ("Player " ++ p.player_id ++ " inventory exceeds capacity")
  else
    match p.rats.find? (fun r => !r.on_rocket && !(b.is_within_bounds r.space_index)) with
    | some rat =>
      some ("Rat " ++ rat.rat_id ++ " at invalid position: " ++ toString rat.space_index)
    | none => none

/-- The rocket-consistency part of `GameState._check_invariants`. -/
def rocketInvariantFail (s : GameState) : Option String :=
  s.rocket.items.findSome? (fun pb =>
    match pb.2 with
    | none => none
    | some b =>
      match s.get_player_by_id b with
      | none => some ("Rocket part " ++ pb.1.value ++ " built by unknown player: " ++ b)
      | some builder =>
        if pb.1 ∈ builder.built_parts then none
        else some ("Player " ++ b ++ " doesn\x27t have " ++ pb.1.value ++ " in built_parts"))

/-- `GameState._check_invariants`: `some msg` models the raise of the
first violated condition. -/
def checkInvariants (s : GameState) : Option String :=
  match s.players.findSome? (playerInvariantFail s.board) with
  | some m => some m
  | none =>
    if s.players.length ≤ s.current_player then
      some ("Invalid current player index: " ++ toString s.current_player)
    else rocketInvariantFail s

/-- `GameState.apply` (models.py): validate (a rejection raises
`ValueError("Invalid action: ...")` before any mutation and before the
history append), resolve, append the history entry, check invariants.
An `exn` result models the raise: the caller's state is unchanged by
a rejected call, since the validator is pure. -/
def GameState.apply (s : GameState) (a : Action) (actor_id : String) (cfg : Config) :
    PyResult (GameState × List DomainEvent) :=
  match validate cfg s a actor_id with
  | .exn m => .exn m
  | .reject m => .exn ("Invalid action: " ++ m)
  | .ok derived =>
    match resolverApply cfg s a actor_id with
    | .exn m => .exn m
    | .ok (s1, events) =>
      let s2 := { s1 with history := s1.history ++ [⟨.player a actor_id, events, derived⟩] }
      match checkInvariants s2 with
      | some m => .exn m
      | none => .ok (s2, events)

/-- `setup.create_player`. -/
def create_player (player_id name : String) (cfg : Config) : Player :=
  { player_id := player_id
    name := name
    rats := (List.range cfg.starting_rats).map
      (fun i => ⟨player_id ++ "_rat_" ++ toString (i + 1), player_id, cfg.start_index, false⟩)
    inv := { capacity := cfg.starting_inventory_capacity, res := [],
             x2_active := false, bottlecaps := 0 }
    tracks := []
    score := 0
    built_parts := [] }

/-- `setup.build_standard_board` (`Color(c)`/`SpaceKind(k)` are the
identity on enum members; shortcuts are not configured). -/
def build_standard_board (cfg : Config) : Board :=
  { spaces := cfg.board_layout
    start_index := cfg.start_index
    launch_index := cfg.launch_index
    shortcuts := none }

/-- `setup.new_game` (the `random.seed` call feeds no randomness into
the core). -/
def new_game (num_players : Nat) (names : List String) (cfg : Config) (seed : Int) :
    Except String GameState :=
  if ¬(2 ≤ num_players ∧ num_players ≤ 4) then
    .error ("Number of players must be 2-4, got " ++ toString num_players)
  else if ¬(names.length = num_players) then
    .error ("Expected " ++ toString num_players ++ " names, got " ++ toString names.length)
  else if ¬names.Nodup then .error "Player names must be unique"
  else
    .ok { board := build_standard_board cfg
          players := names.enum.map
            (fun ia => create_player ("player_" ++ toString (ia.1 + 1)) ia.2 cfg)
          rocket := {}
          current_player := 0
          round := 1
          phase := "MAIN"
          rng_seed := seed
          history := []
          game_over := false
          winner_ids := none }

/-- States reachable from a valid `new_game` setup through successful
`apply` calls. -/
inductive Reachable (cfg : Config) : GameState → Prop where
  | init (num_players : Nat) (names : List String) (seed : Int) (s : GameState) :
      new_game num_players names cfg seed = .ok s → Reachable cfg s
  | step (s : GameState) (a : Action) (actor_id : String) (s' : GameState)
      (events : List DomainEvent) :
      Reachable cfg s → s.apply a actor_id cfg = .ok (s', events) → Reachable cfg s'

/-! ### Serialization (`GameState.to_dict` / `GameState.from_dict`)

The nested dict produced by `to_dict` is modelled structurally: enum
values become their value strings, dicts become the association lists
they iterate as, and the fields `payload`, `shortcuts` and `history`
are passed through both directions verbatim, exactly as in the
source. -/

/-- A serialized `Space` dict. -/
structure SpaceEnc where
  space_id : Nat
  index : Nat
  color : String
  kind : String
  payload : Payload
deriving DecidableEq

/-- A serialized `Rat` dict. -/
structure RatEnc where
  rat_id : String
  owner_id : String
  space_index : Nat
  on_rocket : Bool
deriving DecidableEq

/-- A serialized `Inventory` dict. -/
structure InvEnc where
  capacity : Nat
  resources : List (String × Nat)
  x2_active : Bool
  bottlecaps : Nat
deriving DecidableEq

/-- A serialized `Player` dict. -/
structure PlayerEnc where
  player_id : String
  name : String
  rats : List RatEnc
  inventory : InvEnc
  tracks : List (String × Nat)
  score : Nat
  built_parts : List String
deriving DecidableEq

/-- A serialized `Board` dict. -/
structure BoardEnc where
  spaces : List SpaceEnc
  start_index : Nat
  launch_index : Nat
  shortcuts : Option (List (Nat × Nat))
deriving DecidableEq

/-- The full serialized `GameState` dict. -/
structure StateEnc where
  board : BoardEnc
  players : List PlayerEnc
  rocket_parts : List (String × Option String)
  current_player : Nat
  round : Nat
  phase : String
  rng_seed : Int
  history : List HistoryEntry
  game_over : Bool
  winner_ids : Option (List String)
deriving DecidableEq

/-- `GameState.to_dict` (models.py). -/
def GameState.to_dict (s : GameState) : StateEnc :=
  { board :=
      { spaces := s.board.spaces.map (fun sp =>
          ⟨sp.space_id, sp.index, sp.color.value, sp.kind.value, sp.payload⟩)
        start_index := s.board.start_index
        launch_index := s.board.launch_index
        shortcuts := s.board.shortcuts }
    players := s.players.map (fun p =>
      { player_id := p.player_id
        name := p.name
        rats := p.rats.map (fun r => ⟨r.rat_id, r.owner_id, r.space_index, r.on_rocket⟩)
        inventory := ⟨p.inv.capacity, p.inv.res.map (fun e => (e.1.value, e.2)),
          p.inv.x2_active, p.inv.bottlecaps⟩
        tracks := p.tracks
        score := p.score
        built_parts := p.built_parts.map RocketPart.value })
    rocket_parts := s.rocket.items.map (fun e => (e.1.value, e.2))
    current_player := s.current_player
    round := s.round
    phase := s.phase
    rng_seed := s.rng_seed
    history := s.history
    game_over := s.game_over
    winner_ids := s.winner_ids }

/-- The resource-restoring loop of `from_dict`
(`inventory.res[Resource(res_str)] = amount` for each serialized entry
in order, starting from the empty dict of a fresh `Inventory`); `acc`
is the dict built so far. -/
def decodeResourcesGo (acc : List (Resource × Nat)) :
    List (String × Nat) → Option (List (Resource × Nat))
  | [] => some acc
  | (k, n) :: t =>
    match Resource.parse k with
    | none => none
    | some r => decodeResourcesGo (setResEntry acc r n) t

/-- The full resource-restoring loop of `from_dict`. -/
def decodeResources (l : List (String × Nat)) : Option (List (Resource × Nat)) :=
  decodeResourcesGo [] l

/-- Decode one rat dict. -/
def decodeRat (e : RatEnc) : Rat :=
  ⟨e.rat_id, e.owner_id, e.space_index, e.on_rocket⟩

/-- Decode one player dict (`from_dict` player loop).  The
`built_parts` set comprehension is modelled as its insertion
sequence. -/
def decodePlayer (e : PlayerEnc) : Option Player :=
  match decodeResources e.inventory.resources with
  | none => none
  | some res =>
    match e.built_parts.mapM RocketPart.parse with
    | none => none
    | some parts =>
      some
        { player_id := e.player_id
          name := e.name
          rats := e.rats.map decodeRat
          inv := ⟨e.inventory.capacity, res, e.inventory.x2_active, e.inventory.bottlecaps⟩
          tracks := e.tracks
          score := e.score
          built_parts := parts }

/-- Decode one space dict (enum constructions can raise = `none`). -/
def decodeSpace (e : SpaceEnc) : Option Space :=
  match Color.parse e.color, SpaceKind.parse e.kind with
  | some c, some k => some ⟨e.space_id, e.index, c, k, e.payload⟩
  | _, _ => none

/-- The rocket-restoring loop of `from_dict`: start from `Rocket()` and
set each serialized entry. -/
def decodeRocket : List (String × Option String) → Rocket → Option Rocket
  | [], rk => some rk
  | (k, b) :: t, rk =>
    match RocketPart.parse k with
    | none => none
    | some part => decodeRocket t (rk.set part b)

/-- `GameState.from_dict` (models.py); `none` models the exceptions a
malformed dict raises. -/
def GameState.from_dict (d : StateEnc) : Option GameState :=
  match d.board.spaces.mapM decodeSpace with
  | none => none
  | some spaces =>
    match d.players.mapM decodePlayer with
    | none => none
    | some players =>
      match decodeRocket d.rocket_parts {} with
      | none => none
      | some rocket =>
        some
          { board := ⟨spaces, d.board.start_index, d.board.launch_index, d.board.shortcuts⟩
            players := players
            rocket := rocket
            current_player := d.current_player
            round := d.round
            phase := d.phase
            rng_seed := d.rng_seed
            history := d.history
            game_over := d.game_over
            winner_ids := d.winner_ids }

/-! ### Concrete fixtures for counterexamples and witnesses -/

/-- A green cheese resource space. -/
def exGreenSpace (i : Nat) : Space :=
  ⟨i, i, .GREEN, .RESOURCE, { resource := some .CHEESE, amount := some 1 }⟩

/-- A 10-space all-green board. -/
def exBoard : Board := ⟨(List.range 10).map exGreenSpace, 0, 9, none⟩

/-- Rat A of player p1 at index 0. -/
def exRatA : Rat := ⟨"A", "p1", 0, false⟩

/-- Rat B of player p1 at index 1. -/
def exRatB : Rat := ⟨"B", "p1", 1, false⟩

/-- A player owning rats A (at 0) and B (at 1). -/
def exPlayerAB : Player := ⟨"p1", "Alice", [exRatA, exRatB], {}, [], 0, []⟩

/-- A running game state: p1 to move, game not over. -/
def exStateAB : GameState := { board := exBoard, players := [exPlayerAB], rocket := {} }

/-- The same position with the game already over. -/
def exStateOver : GameState :=
  { board := exBoard, players := [exPlayerAB], rocket := {}, game_over := true }

/-- A rat of p1 already on the rocket. -/
def exRocketRat (i : Nat) : Rat := ⟨"r" ++ toString i, "p1", 0, true⟩

/-- A player with four rats on the rocket. -/
def exPlayer4R : Player :=
  ⟨"p1", "Alice", [exRocketRat 1, exRocketRat 2, exRocketRat 3, exRocketRat 4], {}, [], 0, []⟩

/-- A state in which p1 has four rats on the rocket. -/
def exState4R : GameState := { board := exBoard, players := [exPlayer4R], rocket := {} }

/-- A configuration with both endgame triggers disabled
(`endgame_triggers` without the keys; `.get` defaults to `False`). -/
def exCfgOff : Config := {}

/-- p1 with four rats on the rocket and all five parts built. -/
def exPlayer4R5P : Player :=
  ⟨"p1", "Alice", [exRocketRat 1, exRocketRat 2, exRocketRat 3, exRocketRat 4], {}, [], 0,
   [.NOSE, .TANK, .ENGINE, .FIN_A, .FIN_B]⟩

/-- A second player with three built parts (total parts = 8). -/
def exPlayer3P : Player :=
  ⟨"p2", "Bob", [], {}, [], 0, [.NOSE, .TANK, .ENGINE]⟩

/-- A state in which both endgame conditions hold simultaneously. -/
def exStateBoth : GameState :=
  { board := exBoard, players := [exPlayer4R5P, exPlayer3P], rocket := {} }

/-- A configuration with both endgame triggers enabled. -/
def exCfgOn : Config := { endgame_triggers := ⟨true, true⟩ }

/-! ### C2 — the post-action endgame check ignores the trigger config -/

/-- **C2** (code bug): with BOTH triggers disabled in
`config.endgame_triggers` and a player holding four rats on the
rocket, the config-gated predicate `check_endgame` says the game must
not end, yet `check_and_trigger_endgame` — the check actually run
after every resolved action — fires anyway and records the fourth-rat
trigger; it never reads `config.endgame_triggers`.  The third
conjunct shows the priority half of the claim does hold: when both
conditions are met simultaneously the recorded trigger is the
fourth-rat one. -/
theorem c2_endgame_check_ignores_trigger_config :
    check_endgame exState4R exCfgOff = false ∧
    (check_and_trigger_endgame exState4R exCfgOff).map (fun r => r.2.trigger) =
      some "fourth_rat_on_rocket" ∧
    (check_and_trigger_endgame exStateBoth exCfgOn).map (fun r => r.2.trigger) =
      some "fourth_rat_on_rocket" := by
  decide

/-! ### C3 — occupancy check does not exempt rats of the same move -/

/-- **C3** (code bug): rat A moves 1 step onto index 1, the space
being vacated by rat B of the same move (B moves 1 step to index 2,
both landing spaces green).  The claim and the code's own comment
("excluding the moving rats") say this is not a reason for rejection,
but `validate_move` excludes only the landing rat itself
(`r.rat_id != rat_id`), so the move is rejected. -/
theorem c3_vacated_space_of_same_move_rejected :
    exRatB.space_index = 1 ∧ exRatB.rat_id = "B" ∧
    validateMove exStateAB [("A", 1), ("B", 1)] "p1" =
      .reject "Space 1 is occupied by rat B" := by
  decide

/-! ### C1 — rejection raises with the reason and causes no mutation -/

/-- **C1** (counterexample to the claim as stated): with the game
already over, an `apply` whose actor id is unknown is rejected with
the actor-not-found reason, not the game-already-over reason — the
actor and turn checks precede the game-over check. -/
theorem c1_counterexample :
    exStateOver.game_over = true ∧
    exStateOver.apply .endTurn "ghost" {} =
      .exn "Invalid action: Player ghost not found" ∧
    ¬ exStateOver.apply .endTurn "ghost" {} =
      .exn "Invalid action: Game is already over" := by
  decide

/-- **C1** (amended): whenever validation rejects, `apply` raises
`ValueError("Invalid action: <reason>")` and hands back no state — no
field is mutated and no history entry is appended (the validator is
pure and `apply` raises before the resolver and the history append).
Once `game_over` is true every `apply` is rejected with no mutation;
the reason is the game-already-over one whenever the actor exists and
is the current player (otherwise the earlier actor-unknown or
wrong-turn reason is reported). -/
theorem c1_rejected_apply_raises_without_mutation (cfg : Config) (s : GameState)
    (a : Action) (actor_id : String) :
    (∀ m, validate cfg s a actor_id = .reject m →
      s.apply a actor_id cfg = .exn ("Invalid action: " ++ m)) ∧
    (s.game_over = true →
      ∀ p, s.get_player_by_id actor_id = some p →
      ∀ cur, s.players[s.current_player]? = some cur → cur.player_id = actor_id →
      s.apply a actor_id cfg = .exn "Invalid action: Game is already over") := by
  constructor
  · intro m h
    simp only [GameState.apply, h]
  · intro hover p hp cur hcur hpid
    have hv : validate cfg s a actor_id = .reject "Game is already over" := by
      simp only [validate, hp, hcur, hpid, hover]
      simp
    simp only [GameState.apply, hv]
    rfl

/-- Witness for C1: both conjuncts applied at a concrete over state. -/
theorem c1_witness :
    exStateOver.apply .endTurn "p1" {} = .exn "Invalid action: Game is already over" ∧
    exStateOver.apply .endTurn "ghost" {} = .exn "Invalid action: Player ghost not found" :=
  ⟨(c1_rejected_apply_raises_without_mutation {} exStateOver .endTurn "p1").2
      (by decide) exPlayerAB (by decide) exPlayerAB (by decide) (by decide),
   (c1_rejected_apply_raises_without_mutation {} exStateOver .endTurn "ghost").1
      "Player ghost not found" (by decide)⟩

/-! ### Shared lemmas about player lookup/update and inventory totals -/

/-- Updating the first player with a given id updates exactly the
player that `get_player_by_id` finds, provided the update keeps the
player's id. -/
theorem find?_updateFirstPlayer (l : List Player) (pid : String) (f : Player → Player)
    (p : Player) (h : l.find? (fun q => q.player_id == pid) = some p)
    (hid : (f p).player_id = p.player_id) :
    (updateFirstPlayer l pid f).find? (fun q => q.player_id == pid) = some (f p) := by
  induction l with
  | nil => simp at h
  | cons q t ih =>
    by_cases hq : q.player_id = pid
    · rw [List.find?_cons_of_pos t (by simp [hq])] at h
      injection h with h
      subst h
      unfold updateFirstPlayer
      rw [if_pos hq]
      exact List.find?_cons_of_pos t (by simp [hid, hq])
    · rw [List.find?_cons_of_neg t (by simp [hq])] at h
      unfold updateFirstPlayer
      rw [if_neg hq]
      rw [List.find?_cons_of_neg (updateFirstPlayer t pid f) (by simp [hq])]
      exact ih h

/-- `GameState`-level version of `find?_updateFirstPlayer`. -/
theorem get_player_updatePlayer (s : GameState) (pid : String) (f : Player → Player)
    (p : Player) (h : s.get_player_by_id pid = some p)
    (hid : (f p).player_id = p.player_id) :
    (s.updatePlayer pid f).get_player_by_id pid = some (f p) :=
  find?_updateFirstPlayer s.players pid f p h hid

/-- `updatePlayer` changes no other field of the state. -/
theorem updatePlayer_board (s : GameState) (pid : String) (f : Player → Player) :
    (s.updatePlayer pid f).board = s.board := rfl

/-- `addResEntry` grows the dict total by exactly the added amount. -/
theorem sum_addResEntry (l : List (Resource × Nat)) (r : Resource) (n : Nat) :
    ((addResEntry l r n).map Prod.snd).sum = (l.map Prod.snd).sum + n := by
  induction l with
  | nil => simp [addResEntry]
  | cons e t ih =>
    by_cases he : e.1 = r
    · simp [addResEntry, he]
      omega
    · simp only [addResEntry, if_neg he, List.map_cons, List.sum_cons, ih]
      omega

/-- `Inventory.add` grows the total by exactly the added amount. -/
theorem total_add (inv : Inventory) (r : Resource) (n : Nat) :
    (inv.add r n).total_resources = inv.total_resources + n := by
  unfold Inventory.add
  split
  · simp_all
  · simp [Inventory.total_resources, sum_addResEntry]

/-- `Inventory.add` leaves capacity, the x2 flag and bottlecaps alone. -/
theorem add_fields (inv : Inventory) (r : Resource) (n : Nat) :
    (inv.add r n).capacity = inv.capacity ∧ (inv.add r n).x2_active = inv.x2_active ∧
    (inv.add r n).bottlecaps = inv.bottlecaps := by
  unfold Inventory.add
  split <;> simp

/-- `removeResEntry` never grows the dict total. -/
theorem sum_removeResEntry_le (l : List (Resource × Nat)) (r : Resource) (n : Nat) :
    ((removeResEntry l r n).map Prod.snd).sum ≤ (l.map Prod.snd).sum := by
  induction l with
  | nil => simp [removeResEntry]
  | cons e t ih =>
    by_cases he : e.1 = r
    · by_cases hn : e.2 ≤ n
      · simp only [removeResEntry, if_pos he, if_pos hn, List.map_cons, List.sum_cons]
        omega
      · simp only [removeResEntry, if_pos he, if_neg hn, List.map_cons, List.sum_cons]
        omega
    · simp only [removeResEntry, if_neg he, List.map_cons, List.sum_cons]
      omega

/-- `Inventory.remove` never grows the total and keeps the capacity. -/
theorem remove_total_le (inv : Inventory) (r : Resource) (n : Nat) :
    (inv.remove r n).total_resources ≤ inv.total_resources ∧
    (inv.remove r n).capacity = inv.capacity := by
  unfold Inventory.remove
  split
  · simp
  · exact ⟨sum_removeResEntry_le inv.res r n, rfl⟩

/-! ### C5 — RESOURCE landing effects -/

/-- A resource space offering 0 units. -/
def exZeroSpace : Space :=
  ⟨0, 0, .GREEN, .RESOURCE, { resource := some .CHEESE, amount := some 0 }⟩

/-- A player whose inventory is already full (capacity 0, 0 held). -/
def exPlayerFull : Player := ⟨"p1", "Alice", [], { capacity := 0 }, [], 0, []⟩

/-- State around `exPlayerFull`. -/
def exStateFull : GameState := { board := exBoard, players := [exPlayerFull], rocket := {} }

/-- **C5** (counterexample to the claim as stated): on a RESOURCE space
whose configured amount is 0 and with the inventory already full
(0 free capacity), the code emits a resource-gained event of amount 0
(`can_add(0)` holds, so the full-inventory branch is never reached),
although the claim says a full inventory gains zero with NO
resource-gained event. -/
theorem c5_counterexample :
    exPlayerFull.inv.total_resources = exPlayerFull.inv.capacity ∧
    processSpaceEffects {} exStateFull "p1" exRatA exZeroSpace =
      .ok (exStateFull, [create_resource_gained_event "p1" .CHEESE 0 "space"]) := by
  decide

/-- **C5** (amended: for a positive base amount, as in every configured
space — the degenerate amount-0 space emits a gained event of amount 0
even when full): landing on a RESOURCE space starts from the space's
base amount; an active x2 flag doubles it, is cleared, and emits an
x2-consumed event; the inventory then gains exactly
`min(amount, capacity - total)` — the full amount if it fits, exactly
the remaining free capacity on overflow, zero with no resource-gained
event when already full — and the resource-gained event, when
emitted, carries the amount actually added. -/
theorem c5_resource_space_gain (cfg : Config) (s : GameState) (actor_id : String)
    (rat : Rat) (sp : Space) (r : Resource) (p : Player) (base amt gain : Nat)
    (hkind : sp.kind = .RESOURCE)
    (hres : sp.payload.resource = some r)
    (hbasedef : base = sp.payload.amount.getD 1)
    (hbase : 1 ≤ base)
    (hactor : s.get_player_by_id actor_id = some p)
    (hamt : amt = if p.inv.x2_active then base * 2 else base)
    (hgain : gain = min amt (p.inv.capacity - p.inv.total_resources)) :
    ∃ s' p',
      processSpaceEffects cfg s actor_id rat sp = .ok (s',
        (if p.inv.x2_active then [create_inventory_changed_event actor_id 0 false true] else []) ++
        (if 0 < gain then [create_resource_gained_event actor_id r gain "space"] else [])) ∧
      s'.get_player_by_id actor_id = some p' ∧
      p'.inv.x2_active = false ∧
      p'.inv.capacity = p.inv.capacity ∧
      p'.inv.total_resources = p.inv.total_resources + gain := by
  obtain ⟨sid, sidx, scol, skind, spl⟩ := sp
  simp only at hkind hres hbasedef
  subst hkind
  simp only [processSpaceEffects, hres, hactor]
  by_cases hx2 : p.inv.x2_active = true
  · -- x2 active: flag cleared first, amount doubled
    have hamt' : amt = base * 2 := by rw [hamt, if_pos hx2]
    set p1 : Player := { p with inv := { p.inv with x2_active := false } } with hp1
    have h1 : (s.updatePlayer actor_id
        (fun q => { q with inv := { q.inv with x2_active := false } })).get_player_by_id
        actor_id = some p1 :=
      get_player_updatePlayer s actor_id _ p hactor rfl
    simp only [hx2, if_true, h1, ← hbasedef, ← hamt']
    have hp1tot : p1.inv.total_resources = p.inv.total_resources := rfl
    have hp1cap : p1.inv.capacity = p.inv.capacity := rfl
    by_cases hca : p1.inv.can_add amt = true
    · have hle : p.inv.total_resources + amt ≤ p.inv.capacity := by
        simpa [Inventory.can_add, hp1tot, hp1cap] using hca
      have hgamt : gain = amt := by
        rw [hgain, Nat.min_eq_left (Nat.le_sub_of_add_le (by omega))]
      have hpos : 0 < gain := by rw [hgamt, hamt']; omega
      set p2 : Player := { p1 with inv := p1.inv.add r amt } with hp2
      have h2 := get_player_updatePlayer _ actor_id
        (fun q => { q with inv := q.inv.add r amt }) p1 h1 rfl
      refine ⟨_, p2, ?_, h2, ?_, ?_, ?_⟩
      · simp only [hca, if_true, hgamt]
        rw [if_pos (show 0 < amt by omega)]
      · simp [hp2, (add_fields p1.inv r amt).2.1, hp1]
      · simp [hp2, (add_fields p1.inv r amt).1, hp1cap]
      · simp [hp2, total_add, hp1tot, hgamt]
    · have hgt : p.inv.capacity < p.inv.total_resources + amt := by
        have := hca
        simp [Inventory.can_add, hp1tot, hp1cap] at this
        omega
      have hgavail : gain = p.inv.capacity - p.inv.total_resources := by
        rw [hgain, Nat.min_eq_right (by omega)]
      simp only [hca, if_false, Bool.false_eq_true, hp1tot, hp1cap]
      by_cases hav : 0 < p.inv.capacity - p.inv.total_resources
      · have hpos : 0 < gain := by omega
        set p2 : Player :=
          { p1 with inv := (p1.inv.add r (p.inv.capacity - p.inv.total_resources)) } with hp2
        have h2 := get_player_updatePlayer _ actor_id
          (fun q => { q with inv := q.inv.add r (p.inv.capacity - p.inv.total_resources) })
          p1 h1 rfl
        refine ⟨_, p2, ?_, h2, ?_, ?_, ?_⟩
        · simp only [hav, if_true, hgavail]
        · simp [hp2, (add_fields p1.inv r _).2.1, hp1]
        · simp [hp2, (add_fields p1.inv r _).1, hp1cap]
        · simp [hp2, total_add, hp1tot, hgavail]
      · have hg0 : gain = 0 := by omega
        refine ⟨_, p1, ?_, h1, ?_, ?_, ?_⟩
        · simp [hav, hg0]
        · simp [hp1]
        · simp [hp1]
        · simp [hp1tot, hg0]
  · -- x2 inactive
    have hx2' : p.inv.x2_active = false := by
      cases h : p.inv.x2_active
      · rfl
      · exact absurd h hx2
    have hamt' : amt = base := by rw [hamt, if_neg (by simp [hx2'])]
    simp only [hx2', if_false, Bool.false_eq_true, hactor, ← hbasedef, ← hamt']
    by_cases hca : p.inv.can_add amt = true
    · have hle : p.inv.total_resources + amt ≤ p.inv.capacity := by
        simpa [Inventory.can_add] using hca
      have hgamt : gain = amt := by
        rw [hgain, Nat.min_eq_left (Nat.le_sub_of_add_le (by omega))]
      have hpos : 0 < gain := by rw [hgamt, hamt']; omega
      set p2 : Player := { p with inv := p.inv.add r amt } with hp2
      have h2 := get_player_updatePlayer s actor_id
        (fun q => { q with inv := q.inv.add r amt }) p hactor rfl
      refine ⟨_, p2, ?_, h2, ?_, ?_, ?_⟩
      · simp only [hca, if_true, hgamt, List.nil_append]
        rw [if_pos (show 0 < amt by omega)]
      · simp [hp2, (add_fields p.inv r amt).2.1, hx2']
      · simp [hp2, (add_fields p.inv r amt).1]
      · simp [hp2, total_add, hgamt]
    · have hgt : p.inv.capacity < p.inv.total_resources + amt := by
        have := hca
        simp [Inventory.can_add] at this
        omega
      have hgavail : gain = p.inv.capacity - p.inv.total_resources := by
        rw [hgain, Nat.min_eq_right (by omega)]
      simp only [hca, if_false, Bool.false_eq_true]
      by_cases hav : 0 < p.inv.capacity - p.inv.total_resources
      · have hpos : 0 < gain := by omega
        set p2 : Player :=
          { p with inv := (p.inv.add r (p.inv.capacity - p.inv.total_resources)) } with hp2
        have h2 := get_player_updatePlayer s actor_id
          (fun q => { q with inv := q.inv.add r (p.inv.capacity - p.inv.total_resources) })
          p hactor rfl
        refine ⟨_, p2, ?_, h2, ?_, ?_, ?_⟩
        · simp only [hav, if_true, hgavail, List.nil_append]
        · simp [hp2, (add_fields p.inv r _).2.1, hx2']
        · simp [hp2, (add_fields p.inv r _).1]
        · simp [hp2, total_add, hgavail]
      · have hg0 : gain = 0 := by omega
        refine ⟨_, p, ?_, hactor, hx2', rfl, ?_⟩
        · simp [hav, hg0]
        · simp [hg0]

/-- Player with x2 active, capacity 3, one soda held. -/
def exPlayerX2 : Player :=
  ⟨"p1", "Alice", [], { capacity := 3, res := [(.SODA, 1)], x2_active := true }, [], 0, []⟩

/-- State around `exPlayerX2`. -/
def exStateX2 : GameState := { board := exBoard, players := [exPlayerX2], rocket := {} }

/-- Witness for C5: a space offering 1 cheese, actor with x2 active and
2 free slots — gains 2 (the doubled amount), flag cleared, both
events emitted. -/
theorem c5_witness :
    ∃ s' p',
      processSpaceEffects {} exStateX2 "p1" exRatA (exGreenSpace 1) = .ok (s',
        [create_inventory_changed_event "p1" 0 false true] ++
        [create_resource_gained_event "p1" .CHEESE 2 "space"]) ∧
      s'.get_player_by_id "p1" = some p' ∧
      p'.inv.x2_active = false ∧
      p'.inv.capacity = 3 ∧
      p'.inv.total_resources = 1 + 2 := by
  have h := c5_resource_space_gain {} exStateX2 "p1" exRatA (exGreenSpace 1) .CHEESE
    exPlayerX2 1 2 2 (by decide) (by decide) (by decide) (by decide) (by decide)
    (by decide) (by decide)
  simpa using h

/-! ### C10 — buying x2 with the flag already active is rejected -/

/-- **C10**: in any state where the actor's x2 flag is active and the
named rat is on board at a frog shop (with frog prices configured and
stealing from the frog shop configured), both
`Buy(SHOP_FROG, "x2")` and `Steal(SHOP_FROG, "x2")` fail validation
with the already-active reason — in the buy case before the
affordability loop, so the purchase is rejected even when the actor
can afford the price and no resources can ever be spent on an x2 that
would have no effect. -/
theorem c10_frog_x2_rejected_when_already_active (cfg : Config) (s : GameState)
    (actor_id pr : String) (p cur : Player) (rat : Rat) (sp : Space)
    (price : List (Resource × Nat)) (sr : StealRule)
    (hp : s.get_player_by_id actor_id = some p)
    (hcur : s.players[s.current_player]? = some cur)
    (hpid : cur.player_id = actor_id)
    (hover : s.game_over = false)
    (hpr : ¬(pr = ""))
    (hrat : p.findBoardRat pr = some rat)
    (hsp : s.board.get_space rat.space_index = some sp)
    (hkind : sp.kind = .SHOP_FROG)
    (hprice : alistLookup cfg.shop_prices .SHOP_FROG = some price)
    (hsteal : alistLookup cfg.steal_rules .SHOP_FROG = some sr)
    (hx2 : p.inv.x2_active = true) :
    validate cfg s (.buy (some .SHOP_FROG) (some "x2") (some pr)) actor_id =
      .reject "X2 effect is already active" ∧
    validate cfg s (.steal (some .SHOP_FROG) (some "x2") (some pr)) actor_id =
      .reject "X2 effect is already active" := by
  constructor
  · have hv : validateBuy cfg s (some .SHOP_FROG) (some "x2") (some pr) actor_id =
        .reject "X2 effect is already active" := by
      simp only [validateBuy, hp, hrat, hsp, hkind, hprice, hx2]
      simp [hpr]
    simp only [validate, hp, hcur, hpid, hover]
    simpa using hv
  · have hv : validateSteal cfg s (some .SHOP_FROG) (some "x2") (some pr) actor_id =
        .reject "X2 effect is already active" := by
      simp only [validateSteal, hp, hrat, hsp, hkind, hsteal, hx2]
      simp [hpr, validStealItems]
    simp only [validate, hp, hcur, hpid, hover]
    simpa using hv

/-- A frog-shop space at index 0. -/
def exFrogSpace : Space := ⟨0, 0, .GREEN, .SHOP_FROG, {}⟩

/-- A one-space board holding only the frog shop. -/
def exShopBoard : Board := ⟨[exFrogSpace], 0, 0, none⟩

/-- A player at the frog shop with x2 already active and an affordable
price's worth of soda in the inventory. -/
def exPlayerAtFrog : Player :=
  ⟨"p1", "Alice", [⟨"A", "p1", 0, false⟩], { x2_active := true, res := [(.SODA, 2)] }, [], 0, []⟩

/-- State around `exPlayerAtFrog`. -/
def exStateFrog : GameState :=
  { board := exShopBoard, players := [exPlayerAtFrog], rocket := {} }

/-- A configuration with frog prices and frog steal rules. -/
def exCfgShop : Config :=
  { shop_prices := [(.SHOP_FROG, [(.SODA, 2)])]
    steal_rules := [(.SHOP_FROG, ⟨"x2_active", "send_home"⟩)] }

/-- Witness for C10: the actor can afford the price (2 soda held) and
still both the buy and the steal are rejected as already active. -/
theorem c10_witness :
    validate exCfgShop exStateFrog (.buy (some .SHOP_FROG) (some "x2") (some "A")) "p1" =
      .reject "X2 effect is already active" ∧
    validate exCfgShop exStateFrog (.steal (some .SHOP_FROG) (some "x2") (some "A")) "p1" =
      .reject "X2 effect is already active" :=
  c10_frog_x2_rejected_when_already_active exCfgShop exStateFrog "p1" "A"
    exPlayerAtFrog exPlayerAtFrog ⟨"A", "p1", 0, false⟩ exFrogSpace
    [(.SODA, 2)] ⟨"x2_active", "send_home"⟩
    (by decide) (by decide) (by decide) (by decide) (by decide) (by decide)
    (by decide) (by decide) (by decide) (by decide) (by decide)

/-! ### C9 — the landing-color check of move validation -/

/-- **C9**: for a Move that reaches the color check (shape valid, rats
resolved, landings computed, `l0 :: ls` the landing list): if some
landing color differs from the first one, validation rejects with the
message naming every landing color (in particular both offending
ones); if all landing colors agree, the color check passes and — when
the later occupancy and distinctness checks also pass — the shared
color is the `landing_color` of the validator's derived data. -/
theorem c9_move_landing_color_check (s : GameState) (moves : List (String × Int))
    (actor_id : String) (actor : Player) (mrats : List (Rat × Int))
    (l0 : String × Nat × Color) (ls : List (String × Nat × Color))
    (hne : ¬(moves = []))
    (hactor : s.get_player_by_id actor_id = some actor)
    (hshape : checkMoveShape moves = none)
    (hres : resolveMovingRats actor.get_rats_on_board moves = .ok mrats)
    (hland : computeLandings s.board mrats = some (l0 :: ls)) :
    ((∃ c ∈ ls.map (fun l => l.2.2), ¬(c = l0.2.2)) →
      validateMove s moves actor_id =
        .reject (colorMismatchMsg ((l0 :: ls).map (fun l => l.2.2)))) ∧
    ((∀ c ∈ ls.map (fun l => l.2.2), c = l0.2.2) →
      occupancyCheck (s.board.get_all_rats_on_board s.players)
        ((l0 :: ls).map (fun l => (l.1, l.2.1))) = none →
      (((l0 :: ls).map (fun l => (l.1, l.2.1))).map (fun x => x.2)).Nodup →
      validateMove s moves actor_id =
        .ok (.moveData ((l0 :: ls).map (fun l => (l.1, l.2.1))) l0.2.2
          (mrats.map (fun m => (m.1.rat_id, m.1.space_index, m.2))))) := by
  constructor
  · intro hc
    have hany : ((ls.map (fun l => l.2.2)).any (fun c => decide ¬(c = l0.2.2))) = true := by
      simp only [List.any_eq_true, decide_eq_true_eq]
      exact hc
    simp only [validateMove, if_neg hne, hactor, hshape, hres, hland, hany, if_true]
  · intro hall hocc hnd
    have hany : ((ls.map (fun l => l.2.2)).any (fun c => decide ¬(c = l0.2.2))) = false := by
      simp only [List.any_eq_false, decide_eq_true_eq]
      intro x hx
      simp only [not_not]
      exact hall x hx
    simp only [validateMove, if_neg hne, hactor, hshape, hres, hland, hany,
      Bool.false_eq_true, if_false, hocc]
    rw [if_pos hnd]

/-- A resource space that is yellow on even and blue on odd indices. -/
def exColorSpace (i : Nat) : Space :=
  ⟨i, i, if i % 2 = 0 then .YELLOW else .BLUE, .RESOURCE,
   { resource := some .CHEESE, amount := some 1 }⟩

/-- A 10-space alternating yellow/blue board. -/
def exColorBoard : Board := ⟨(List.range 10).map exColorSpace, 0, 9, none⟩

/-- p1 owning rats A (index 0) and B (index 2). -/
def exPlayerColor : Player :=
  ⟨"p1", "Alice", [⟨"A", "p1", 0, false⟩, ⟨"B", "p1", 2, false⟩], {}, [], 0, []⟩

/-- State around `exPlayerColor`. -/
def exStateColor : GameState :=
  { board := exColorBoard, players := [exPlayerColor], rocket := {} }

/-- Witness for C9: moving A onto a YELLOW space and B onto a BLUE one
in the same action is rejected citing "YELLOW" and "BLUE"; moving
both onto BLUE spaces passes the color check with BLUE as the derived
shared landing color. -/
theorem c9_witness :
    validateMove exStateColor [("A", 2), ("B", 1)] "p1" =
      .reject "All rats must land on same color spaces, got: [\x27YELLOW\x27, \x27BLUE\x27]" ∧
    validateMove exStateColor [("A", 1), ("B", 1)] "p1" =
      .ok (.moveData [("A", 1), ("B", 3)] .BLUE [("A", 0, 1), ("B", 2, 1)]) := by
  constructor
  · have h := (c9_move_landing_color_check exStateColor [("A", 2), ("B", 1)] "p1"
      exPlayerColor [(⟨"A", "p1", 0, false⟩, 2), (⟨"B", "p1", 2, false⟩, 1)]
      ("A", 2, .YELLOW) [("B", 3, .BLUE)]
      (by decide) (by decide) (by decide) (by rfl) (by decide)).1
      ⟨.BLUE, by decide, by decide⟩
    exact h.trans (by decide)
  · have h := (c9_move_landing_color_check exStateColor [("A", 1), ("B", 1)] "p1"
      exPlayerColor [(⟨"A", "p1", 0, false⟩, 1), (⟨"B", "p1", 2, false⟩, 1)]
      ("A", 1, .BLUE) [("B", 3, .BLUE)]
      (by decide) (by decide) (by decide) (by rfl) (by decide)).2
      (by decide) (by decide) (by decide)
    exact h.trans (by decide)

/-! ### C6 — final scoring and winner determination -/

/-- The fold seed never exceeds the fold of `max`. -/
theorem le_foldl_max_init (l : List Nat) (a : Nat) : a ≤ l.foldl max a := by
  induction l generalizing a with
  | nil => exact Nat.le_refl a
  | cons h t ih => exact Nat.le_trans (Nat.le_max_left a h) (ih (max a h))

/-- Every member is below the `max` fold. -/
theorem mem_le_foldl_max (l : List Nat) (a x : Nat) (hx : x ∈ l) : x ≤ l.foldl max a := by
  induction l generalizing a with
  | nil => cases hx
  | cons h t ih =>
    rcases List.mem_cons.mp hx with rfl | hmem
    · exact Nat.le_trans (Nat.le_max_right a x) (le_foldl_max_init t (max a x))
    · exact ih (max a h) hmem

/-- The `max` fold is below any common upper bound of seed and members. -/
theorem foldl_max_le_of (l : List Nat) (a n : Nat) (ha : a ≤ n) (h : ∀ x ∈ l, x ≤ n) :
    l.foldl max a ≤ n := by
  induction l generalizing a with
  | nil => exact ha
  | cons hd t ih =>
    exact ih (max a hd) (Nat.max_le.mpr ⟨ha, h hd (List.mem_cons_self hd t)⟩)
      (fun x hx => h x (List.mem_cons_of_mem hd hx))

/-- Transcription of the claim's final-score formula: accumulated score,
plus built-part immediate scores when rocket-part scoring is enabled,
plus bottlecaps times the configured multiplier, plus twice the
lightbulb track level when enabled, plus half the remaining resource
units when enabled. -/
def specFinalScore (cfg : Config) (p : Player) : Nat :=
  p.score +
  (if cfg.scoring_rules.rocket_parts then (p.built_parts.map cfg.partScore).sum else 0) +
  p.inv.bottlecaps * cfg.scoring_rules.bottlecaps +
  (if cfg.scoring_rules.lightbulb_track then getTrack p.tracks "lightbulb" * 2 else 0) +
  (if cfg.scoring_rules.remaining_resources then p.inv.total_resources / 2 else 0)

/-- `determine_winners` membership characterised extensionally: exactly
the ids whose breakdown has maximal total score and, among the
score-tied entries, maximal rats-on-rocket count. -/
theorem determine_winners_iff (bd : List (String × Breakdown)) (pid : String) :
    pid ∈ determine_winners bd ↔
      ∃ b, (pid, b) ∈ bd ∧
        (∀ e ∈ bd, e.2.total_score ≤ b.total_score) ∧
        (∀ e ∈ bd, e.2.total_score = b.total_score →
          e.2.rats_on_rocket_count ≤ b.rats_on_rocket_count) := by
  simp only [determine_winners]
  generalize hM : (bd.map (fun e => e.2.total_score)).foldl max 0 = M
  generalize htied : bd.filter (fun e => e.2.total_score == M) = tied
  have hub : ∀ e ∈ bd, e.2.total_score ≤ M := by
    intro e he
    rw [← hM]
    exact mem_le_foldl_max _ 0 _ (List.mem_map_of_mem (fun e => e.2.total_score) he)
  have htied_mem : ∀ e, e ∈ tied ↔ e ∈ bd ∧ e.2.total_score = M := by
    intro e
    rw [← htied]
    simp [List.mem_filter]
  have hmaxmem : ∀ (b : Breakdown), (pid, b) ∈ bd →
      (∀ e ∈ bd, e.2.total_score ≤ b.total_score) → b.total_score = M := by
    intro b hb hball
    refine Nat.le_antisymm (hub _ hb) ?_
    rw [← hM]
    refine foldl_max_le_of _ 0 _ (Nat.zero_le _) ?_
    intro x hx
    obtain ⟨e, he, rfl⟩ := List.mem_map.mp hx
    exact hball e he
  by_cases hlen : tied.length = 1
  · rw [if_pos hlen]
    obtain ⟨t, ht⟩ := List.length_eq_one.mp hlen
    subst ht
    constructor
    · intro hpid
      simp only [List.map_cons, List.map_nil, List.mem_singleton] at hpid
      obtain ⟨htbd, htM⟩ := (htied_mem t).mp (List.mem_singleton_self t)
      refine ⟨t.2, ?_, ?_, ?_⟩
      · rwa [hpid]
      · intro e he
        rw [htM]
        exact hub e he
      · intro e he heM
        have he' : e ∈ [t] := (htied_mem e).mpr ⟨he, by rw [heM, htM]⟩
        rw [List.mem_singleton.mp he']
    · rintro ⟨b, hb, hball, _⟩
      have hbM : b.total_score = M := hmaxmem b hb hball
      have hmem : (pid, b) ∈ [t] := (htied_mem _).mpr ⟨hb, hbM⟩
      have := List.mem_singleton.mp hmem
      simp [← this]
  · rw [if_neg hlen]
    generalize hR : (tied.map (fun e => e.2.rats_on_rocket_count)).foldl max 0 = R
    have hubR : ∀ e ∈ tied, e.2.rats_on_rocket_count ≤ R := by
      intro e he
      rw [← hR]
      exact mem_le_foldl_max _ 0 _
        (List.mem_map_of_mem (fun e => e.2.rats_on_rocket_count) he)
    constructor
    · intro hpid
      obtain ⟨e, hemem, rfl⟩ := List.mem_map.mp hpid
      obtain ⟨hetied, heR⟩ := List.mem_filter.mp hemem
      obtain ⟨hebd, heM⟩ := (htied_mem e).mp hetied
      refine ⟨e.2, by simpa using hebd, ?_, ?_⟩
      · intro f hf
        rw [heM]
        exact hub f hf
      · intro f hf hfe
        have hftied : f ∈ tied := (htied_mem f).mpr ⟨hf, by rw [hfe, heM]⟩
        have h1 := hubR f hftied
        have heR' : e.2.rats_on_rocket_count = R := by simpa using heR
        omega
    · rintro ⟨b, hb, hball, hrats⟩
      have hbM : b.total_score = M := hmaxmem b hb hball
      have hbtied : (pid, b) ∈ tied := (htied_mem _).mpr ⟨hb, hbM⟩
      have hbR : b.rats_on_rocket_count = R := by
        refine Nat.le_antisymm (hubR _ hbtied) ?_
        rw [← hR]
        refine foldl_max_le_of _ 0 _ (Nat.zero_le _) ?_
        intro x hx
        obtain ⟨f, hf, rfl⟩ := List.mem_map.mp hx
        obtain ⟨hfbd, hfM⟩ := (htied_mem f).mp hf
        exact hrats f hfbd (by rw [hfM, hbM])
      refine List.mem_map.mpr ⟨(pid, b), ?_, rfl⟩
      exact List.mem_filter.mpr ⟨hbtied, by simpa using hbR⟩

/-- **C6**: when the endgame fires, each player's final total equals
the claim's formula (accumulated score + enabled part scores +
bottlecaps × multiplier + 2 per lightbulb level when enabled + half
the remaining resources when enabled), and the winners are exactly
the players of maximal final score, ties broken by the
rats-on-rocket count with still-tied players as co-winners. -/
theorem c6_final_scores_and_winners (cfg : Config) (s : GameState) :
    (∀ p ∈ s.players, (breakdownOf cfg p).total_score = specFinalScore cfg p) ∧
    (∀ pid, pid ∈ determine_winners (calculate_final_scores s cfg) ↔
      ∃ b, (pid, b) ∈ calculate_final_scores s cfg ∧
        (∀ e ∈ calculate_final_scores s cfg, e.2.total_score ≤ b.total_score) ∧
        (∀ e ∈ calculate_final_scores s cfg, e.2.total_score = b.total_score →
          e.2.rats_on_rocket_count ≤ b.rats_on_rocket_count)) := by
  constructor
  · intro p _
    unfold breakdownOf specFinalScore
    rcases Nat.eq_zero_or_pos cfg.scoring_rules.bottlecaps with h | h
    · simp [h]
    · simp [h, Nat.pos_iff_ne_zero.mp h]
  · intro pid
    exact determine_winners_iff (calculate_final_scores s cfg) pid

/-- A config scoring 1 point per built rocket part. -/
def exCfgScore : Config :=
  { rocket_part_scores := [(.NOSE, 1), (.TANK, 1), (.ENGINE, 1), (.FIN_A, 1), (.FIN_B, 1)] }

/-- Witness for C6: in `exStateBoth` (p1: 4 rats on rocket, five parts
built; p2: three parts, no rats on rocket) under a config scoring 1
point per part, p1 is a winner, via the characterisation. -/
theorem c6_witness :
    (breakdownOf exCfgScore exPlayer4R5P).total_score = specFinalScore exCfgScore exPlayer4R5P ∧
    "p1" ∈ determine_winners (calculate_final_scores exStateBoth exCfgScore) :=
  ⟨(c6_final_scores_and_winners exCfgScore exStateBoth).1 exPlayer4R5P (by decide),
   ((c6_final_scores_and_winners exCfgScore exStateBoth).2 "p1").mpr
    ⟨breakdownOf exCfgScore exPlayer4R5P, by decide, by decide, by decide⟩⟩

/-! ### C7 — serialization round trip -/

/-- `Color(str)` inverts `Color.value`. -/
theorem colorValue_parse (c : Color) : Color.parse c.value = some c := by
  cases c <;> rfl

/-- `Resource(str)` inverts `Resource.value`. -/
theorem resourceValue_parse (r : Resource) : Resource.parse r.value = some r := by
  cases r <;> rfl

/-- `RocketPart(str)` inverts `RocketPart.value`. -/
theorem partValue_parse (p : RocketPart) : RocketPart.parse p.value = some p := by
  cases p <;> rfl

/-- `SpaceKind(str)` inverts `SpaceKind.value`. -/
theorem kindValue_parse (k : SpaceKind) : SpaceKind.parse k.value = some k := by
  cases k <;> rfl

/-- `mapM` of a right inverse over a mapped list is the identity. -/
theorem mapM_map_inv {α β : Type} (f : α → β) (g : β → Option α) (l : List α)
    (h : ∀ x ∈ l, g (f x) = some x) : (l.map f).mapM g = some l := by
  induction l with
  | nil => rfl
  | cons x t ih =>
    simp only [List.map_cons, List.mapM_cons, h x (List.mem_cons_self x t),
      ih (fun y hy => h y (List.mem_cons_of_mem x hy)), Option.pure_def, Option.bind_eq_bind,
      Option.some_bind]

/-- Decoding an encoded space restores it. -/
theorem decodeSpace_enc (sp : Space) :
    decodeSpace ⟨sp.space_id, sp.index, sp.color.value, sp.kind.value, sp.payload⟩ = some sp := by
  obtain ⟨sid, idx, c, k, pl⟩ := sp
  simp [decodeSpace, colorValue_parse, kindValue_parse]

/-- Assigning a fresh key appends it at the end of the dict. -/
theorem setResEntry_notmem (l : List (Resource × Nat)) (r : Resource) (n : Nat)
    (h : ¬(r ∈ l.map Prod.fst)) : setResEntry l r n = l ++ [(r, n)] := by
  induction l with
  | nil => rfl
  | cons e t ih =>
    obtain ⟨a, m⟩ := e
    simp only [List.map_cons, List.mem_cons] at h
    push_neg at h
    simp only [setResEntry, if_neg (show ¬(a = r) from fun he => h.1 he.symm),
      List.cons_append]
    rw [ih h.2]

/-- The resource-restoring loop, run over an encoded dict with
duplicate-free keys disjoint from the accumulator, rebuilds the
original entries in order after the accumulator. -/
theorem decodeResourcesGo_enc (l : List (Resource × Nat)) :
    ∀ (acc : List (Resource × Nat)), (l.map Prod.fst).Nodup →
    (∀ r ∈ l.map Prod.fst, ¬(r ∈ acc.map Prod.fst)) →
    decodeResourcesGo acc (l.map (fun e => (e.1.value, e.2))) = some (acc ++ l) := by
  induction l with
  | nil => intro acc _ _; simp [decodeResourcesGo]
  | cons e t ih =>
    intro acc hnd hdisj
    simp only [List.map_cons, decodeResourcesGo, resourceValue_parse e.1]
    rw [setResEntry_notmem acc e.1 e.2 (hdisj e.1 (by simp))]
    simp only [List.map_cons, List.nodup_cons] at hnd
    rw [ih (acc ++ [(e.1, e.2)]) hnd.2 ?_]
    · simp
    · intro r hr
      simp only [List.map_append, List.mem_append]
      push_neg
      constructor
      · exact hdisj r (by simp [hr])
      · simp only [List.map_cons, List.map_nil, List.mem_singleton]
        intro hre
        exact hnd.1 (hre ▸ hr)

/-- Decoding an encoded inventory dict with duplicate-free keys
restores the entries. -/
theorem decodeResources_enc (l : List (Resource × Nat)) (h : (l.map Prod.fst).Nodup) :
    decodeResources (l.map (fun e => (e.1.value, e.2))) = some l := by
  unfold decodeResources
  rw [decodeResourcesGo_enc l [] h (by simp)]
  rfl

/-- Decoding an encoded player restores it, provided the inventory dict
keys are duplicate-free (as in every Python dict). -/
theorem decodePlayer_enc (p : Player) (h : (p.inv.res.map Prod.fst).Nodup) :
    decodePlayer
      { player_id := p.player_id
        name := p.name
        rats := p.rats.map (fun r => ⟨r.rat_id, r.owner_id, r.space_index, r.on_rocket⟩)
        inventory := ⟨p.inv.capacity, p.inv.res.map (fun e => (e.1.value, e.2)),
          p.inv.x2_active, p.inv.bottlecaps⟩
        tracks := p.tracks
        score := p.score
        built_parts := p.built_parts.map RocketPart.value } = some p := by
  obtain ⟨pid, nm, rats, ⟨cap, res, x2, caps⟩, tracks, score, parts⟩ := p
  simp only at h
  simp only [decodePlayer, decodeResources_enc res h,
    mapM_map_inv RocketPart.value RocketPart.parse parts
      (fun x _ => partValue_parse x)]
  have hrats : rats.map (fun r => decodeRat ⟨r.rat_id, r.owner_id, r.space_index, r.on_rocket⟩)
      = rats := by
    induction rats with
    | nil => rfl
    | cons r t ihr => simp [decodeRat, ihr]
  simp only [List.map_map]
  simpa [Function.comp] using hrats

/-- Decoding the encoded rocket dict restores it. -/
theorem decodeRocket_enc (rk : Rocket) :
    decodeRocket (rk.items.map (fun e => (e.1.value, e.2))) {} = some rk := by
  obtain ⟨n, t, e, fa, fb⟩ := rk
  rfl

/-- `from_dict` inverts `to_dict` on every state whose per-player
inventory dicts have duplicate-free keys (true of every dict the
Python runtime can hold). -/
theorem from_dict_to_dict (s : GameState)
    (h : ∀ p ∈ s.players, (p.inv.res.map Prod.fst).Nodup) :
    GameState.from_dict (GameState.to_dict s) = some s := by
  obtain ⟨⟨spaces, si, li, sc⟩, players, rocket, cur, rnd, ph, seed, hist, go, win⟩ := s
  simp only [GameState.to_dict, GameState.from_dict]
  rw [mapM_map_inv _ decodeSpace _ (fun sp _ => decodeSpace_enc sp)]
  rw [mapM_map_inv _ decodePlayer _ (fun p hp => decodePlayer_enc p (h p hp))]
  rw [decodeRocket_enc rocket]

/-- **C7**: re-encoding the decoded encoding is the identity on
encodings — `from_dict(to_dict(s)).to_dict()` is structurally
identical to `to_dict(s)` (stated over states whose inventory dicts
have duplicate-free keys, the invariant every Python dict enforces by
construction). -/
theorem c7_serialization_roundtrip (s : GameState)
    (h : ∀ p ∈ s.players, (p.inv.res.map Prod.fst).Nodup) :
    (GameState.from_dict (GameState.to_dict s)).map GameState.to_dict =
      some (GameState.to_dict s) := by
  rw [from_dict_to_dict s h]
  rfl

/-- Witness for C7 on a concrete mid-game state with a non-empty
inventory, rats on board and on the rocket, and built parts. -/
theorem c7_witness :
    (GameState.from_dict (GameState.to_dict exStateX2)).map GameState.to_dict =
      some (GameState.to_dict exStateX2) :=
  c7_serialization_roundtrip exStateX2 (by decide)

/-! ### C8 — the inventory-capacity invariant on reachable states -/

/-- The capacity clause of `_check_invariants`: every player's held
resource total is within their capacity. -/
def InvCapOK (s : GameState) : Prop :=
  ∀ p ∈ s.players, p.inv.total_resources ≤ p.inv.capacity

/-- A pointwise capacity-safe update keeps the invariant. -/
theorem invcapL_update_pointwise (l : List Player) (pid : String) (f : Player → Player)
    (hl : ∀ q ∈ l, q.inv.total_resources ≤ q.inv.capacity)
    (hf : ∀ q, q.inv.total_resources ≤ q.inv.capacity →
      (f q).inv.total_resources ≤ (f q).inv.capacity) :
    ∀ q ∈ updateFirstPlayer l pid f, q.inv.total_resources ≤ q.inv.capacity := by
  induction l with
  | nil => intro q hq; cases hq
  | cons x t ih =>
    intro q hq
    unfold updateFirstPlayer at hq
    by_cases hx : x.player_id = pid
    · rw [if_pos hx] at hq
      rcases List.mem_cons.mp hq with rfl | hmem
      · exact hf x (hl x (List.mem_cons_self x t))
      · exact hl q (List.mem_cons_of_mem x hmem)
    · rw [if_neg hx] at hq
      rcases List.mem_cons.mp hq with rfl | hmem
      · exact hl q (List.mem_cons_self q t)
      · exact ih (fun r hr => hl r (List.mem_cons_of_mem x hr)) q hmem

/-- `updatePlayer` with a pointwise capacity-safe `f` keeps `InvCapOK`. -/
theorem invcap_update_pointwise (s : GameState) (pid : String) (f : Player → Player)
    (hs : InvCapOK s)
    (hf : ∀ q, q.inv.total_resources ≤ q.inv.capacity →
      (f q).inv.total_resources ≤ (f q).inv.capacity) :
    InvCapOK (s.updatePlayer pid f) :=
  invcapL_update_pointwise s.players pid f hs hf

/-- An update that is capacity-safe on the player actually found keeps
the invariant (the updated element is exactly the first id match). -/
theorem invcapL_update_found (l : List Player) (pid : String) (f : Player → Player)
    (p : Player) (hl : ∀ q ∈ l, q.inv.total_resources ≤ q.inv.capacity)
    (hfind : l.find? (fun q => q.player_id == pid) = some p)
    (hfp : (f p).inv.total_resources ≤ (f p).inv.capacity) :
    ∀ q ∈ updateFirstPlayer l pid f, q.inv.total_resources ≤ q.inv.capacity := by
  induction l with
  | nil => intro q hq; cases hq
  | cons x t ih =>
    intro q hq
    unfold updateFirstPlayer at hq
    by_cases hx : x.player_id = pid
    · rw [List.find?_cons_of_pos t (by simp [hx])] at hfind
      injection hfind with hfind
      rw [if_pos hx] at hq
      rcases List.mem_cons.mp hq with rfl | hmem
      · rw [hfind]; exact hfp
      · exact hl q (List.mem_cons_of_mem x hmem)
    · rw [List.find?_cons_of_neg t (by simp [hx])] at hfind
      rw [if_neg hx] at hq
      rcases List.mem_cons.mp hq with rfl | hmem
      · exact hl q (List.mem_cons_self q t)
      · exact ih (fun r hr => hl r (List.mem_cons_of_mem x hr)) hfind q hmem

/-- `GameState`-level version of `invcapL_update_found`. -/
theorem invcap_update_found (s : GameState) (pid : String) (f : Player → Player)
    (p : Player) (hs : InvCapOK s) (hfind : s.get_player_by_id pid = some p)
    (hfp : (f p).inv.total_resources ≤ (f p).inv.capacity) :
    InvCapOK (s.updatePlayer pid f) :=
  invcapL_update_found s.players pid f p hs hfind hfp

/-- `_process_space_effects` keeps the capacity invariant: a RESOURCE
landing adds at most the free capacity, and no other landing touches
held resources or capacity. -/
theorem processSpaceEffects_invcap (cfg : Config) (s : GameState) (aid : String)
    (rat : Rat) (sp : Space) (s' : GameState) (ev : List DomainEvent)
    (h : processSpaceEffects cfg s aid rat sp = .ok (s', ev)) (hs : InvCapOK s) :
    InvCapOK s' := by
  obtain ⟨sid, sidx, scol, skind, spl⟩ := sp
  cases skind <;> simp only [processSpaceEffects] at h
  case RESOURCE =>
    match hres : spl.resource with
    | none => rw [hres] at h; cases h
    | some rtype =>
      rw [hres] at h
      match hfind : s.get_player_by_id aid with
      | none => rw [hfind] at h; cases h
      | some actor0 =>
        rw [hfind] at h
        simp only at h
        by_cases hx2 : actor0.inv.x2_active = true
        · rw [if_pos hx2, if_pos hx2, if_pos hx2] at h
          set p1 : Player := { actor0 with inv := { actor0.inv with x2_active := false } } with hp1
          set s1 := s.updatePlayer aid
            (fun p => { p with inv := { p.inv with x2_active := false } }) with hs1
          have hfind1 : s1.get_player_by_id aid = some p1 :=
            get_player_updatePlayer s aid _ actor0 hfind rfl
          have hs1ok : InvCapOK s1 :=
            invcap_update_pointwise s aid _ hs (fun q hq => hq)
          clear_value p1 s1
          rw [hfind1] at h
          simp only at h
          by_cases hca : p1.inv.can_add (spl.amount.getD 1 * 2) = true
          · rw [if_pos hca] at h
            injection h with h
            obtain ⟨h1, -⟩ := Prod.mk.inj h
            subst h1
            refine invcap_update_found s1 aid _ p1 hs1ok hfind1 ?_
            have hcan : p1.inv.total_resources + spl.amount.getD 1 * 2 ≤ p1.inv.capacity := by
              simpa [Inventory.can_add] using hca
            simp only [total_add, (add_fields p1.inv rtype _).1]
            omega
          · rw [if_neg hca] at h
            by_cases hav : 0 < p1.inv.capacity - p1.inv.total_resources
            · rw [if_pos hav] at h
              injection h with h
              obtain ⟨h1, -⟩ := Prod.mk.inj h
              subst h1
              refine invcap_update_found s1 aid _ p1 hs1ok hfind1 ?_
              simp only [total_add, (add_fields p1.inv rtype _).1]
              omega
            · rw [if_neg hav] at h
              injection h with h
              obtain ⟨h1, -⟩ := Prod.mk.inj h
              subst h1
              exact hs1ok
        · rw [if_neg hx2, if_neg hx2, if_neg hx2] at h
          rw [hfind] at h
          simp only at h
          by_cases hca : actor0.inv.can_add (spl.amount.getD 1) = true
          · rw [if_pos hca] at h
            injection h with h
            obtain ⟨h1, -⟩ := Prod.mk.inj h
            subst h1
            refine invcap_update_found s aid _ actor0 hs hfind ?_
            have hcan : actor0.inv.total_resources + spl.amount.getD 1 ≤ actor0.inv.capacity := by
              simpa [Inventory.can_add] using hca
            simp only [total_add, (add_fields actor0.inv rtype _).1]
            omega
          · rw [if_neg hca] at h
            by_cases hav : 0 < actor0.inv.capacity - actor0.inv.total_resources
            · rw [if_pos hav] at h
              injection h with h
              obtain ⟨h1, -⟩ := Prod.mk.inj h
              subst h1
              refine invcap_update_found s aid _ actor0 hs hfind ?_
              simp only [total_add, (add_fields actor0.inv rtype _).1]
              omega
            · rw [if_neg hav] at h
              injection h with h
              obtain ⟨h1, -⟩ := Prod.mk.inj h
              subst h1
              exact hs
  case LIGHTBULB_TRACK =>
    match hfind : s.get_player_by_id aid with
    | none => rw [hfind] at h; cases h
    | some actor0 =>
      rw [hfind] at h
      simp only at h
      set s1 := s.updatePlayer aid
        (fun p => { p with tracks := addTrack p.tracks "lightbulb" (spl.track_gain.getD 1) }) with hs1
      have hs1ok : InvCapOK s1 := invcap_update_pointwise s aid _ hs (fun q hq => hq)
      match hfind1 : s1.get_player_by_id aid with
      | none => rw [hfind1] at h; cases h
      | some actor1 =>
        rw [hfind1] at h
        simp only at h
        match hrew : alistLookup cfg.lightbulb_track_rewards (getTrack actor1.tracks "lightbulb") with
        | some (.immediate pts) =>
          rw [hrew] at h
          simp only at h
          set s2 := s1.updatePlayer aid (fun p => { p with score := p.score + pts }) with hs2
          have hs2ok : InvCapOK s2 := invcap_update_pointwise s1 aid _ hs1ok (fun q hq => hq)
          match hfind2 : s2.get_player_by_id aid with
          | none => rw [hfind2] at h; cases h
          | some actor2 =>
            rw [hfind2] at h
            injection h with h
            obtain ⟨h1, -⟩ := Prod.mk.inj h
            subst h1
            exact hs2ok
        | some (.passive e) =>
          rw [hrew] at h
          injection h with h
          obtain ⟨h1, -⟩ := Prod.mk.inj h
          subst h1
          exact hs1ok
        | none =>
          rw [hrew] at h
          injection h with h
          obtain ⟨h1, -⟩ := Prod.mk.inj h
          subst h1
          exact hs1ok
  case LAUNCH_PAD =>
    by_cases hrk : rat.on_rocket = true
    · rw [if_pos hrk] at h
      injection h with h
      obtain ⟨h1, -⟩ := Prod.mk.inj h
      subst h1
      exact hs
    · rw [if_neg hrk] at h
      set s1 := s.updatePlayer aid (fun p =>
        { p with rats := (updateFirstBoardRat p.rats rat.rat_id
            (fun r => { r with on_rocket := true })) }) with hs1
      have hs1ok : InvCapOK s1 := invcap_update_pointwise s aid _ hs (fun q hq => hq)
      match hfind1 : s1.get_player_by_id aid with
      | none => rw [hfind1] at h; cases h
      | some actor1 =>
        rw [hfind1] at h
        simp only at h
        by_cases hlt : actor1.rats.length < cfg.max_rats
        · rw [if_pos hlt] at h
          injection h with h
          obtain ⟨h1, -⟩ := Prod.mk.inj h
          subst h1
          exact invcap_update_pointwise s1 aid _ hs1ok (fun q hq => hq)
        · rw [if_neg hlt] at h
          injection h with h
          obtain ⟨h1, -⟩ := Prod.mk.inj h
          subst h1
          exact hs1ok
  all_goals
    injection h with h
    obtain ⟨h1, -⟩ := Prod.mk.inj h
    subst h1
    exact hs

/-- One `resolve_move` iteration keeps the capacity invariant. -/
theorem resolveOneMove_invcap (cfg : Config) (s : GameState) (aid rid : String)
    (steps : Int) (s' : GameState) (ev : List DomainEvent) (ni : Nat)
    (h : resolveOneMove cfg s aid rid steps = .ok (s', ev, ni)) (hs : InvCapOK s) :
    InvCapOK s' := by
  unfold resolveOneMove at h
  split at h
  · cases h
  next actor hfind =>
    split at h
    · cases h
    next rat hrat =>
      simp only at h
      split at h
      · cases h
      next sp hsp =>
        split at h
        · cases h
        next s2 evts heq =>
          injection h with h
          obtain ⟨h1, -⟩ := Prod.mk.inj h
          subst h1
          exact processSpaceEffects_invcap cfg _ aid _ sp s2 evts heq
            (invcap_update_pointwise s aid _ hs (fun q hq => hq))

/-- The `resolve_move` loop keeps the capacity invariant. -/
theorem resolveMoveGo_invcap (cfg : Config) (aid : String) :
    ∀ (moves : List (String × Int)) (s s' : GameState) (ev : List DomainEvent)
      (tr : List (String × Nat)),
      resolveMoveGo cfg aid s moves = .ok (s', ev, tr) → InvCapOK s → InvCapOK s' := by
  intro moves
  induction moves with
  | nil =>
    intro s s' ev tr h hs
    injection h with h
    obtain ⟨h1, -⟩ := Prod.mk.inj h
    subst h1
    exact hs
  | cons m rest ih =>
    intro s s' ev tr h hs
    obtain ⟨rid, steps⟩ := m
    unfold resolveMoveGo at h
    split at h
    · cases h
    next s1 evts ni heq =>
      split at h
      · cases h
      next s2 evts2 tr2 heq2 =>
        injection h with h
        obtain ⟨h1, -⟩ := Prod.mk.inj h
        subst h1
        exact ih s1 s2 evts2 tr2 heq2 (resolveOneMove_invcap cfg s aid rid steps s1 evts ni heq hs)

/-- Spending a price through repeated `Inventory.remove` keeps the
capacity invariant. -/
theorem invcap_foldl_remove (aid : String) (price : List (Resource × Nat)) :
    ∀ s : GameState, InvCapOK s → InvCapOK (price.foldl (fun st rc =>
      st.updatePlayer aid (fun p => { p with inv := p.inv.remove rc.1 rc.2 })) s) := by
  induction price with
  | nil => intro s hs; exact hs
  | cons rc t ih =>
    intro s hs
    simp only [List.foldl_cons]
    refine ih _ (invcap_update_pointwise s aid _ hs ?_)
    intro q hq
    have h1 := (remove_total_le q.inv rc.1 rc.2).1
    have h2 := (remove_total_le q.inv rc.1 rc.2).2
    show (q.inv.remove rc.1 rc.2).total_resources ≤ (q.inv.remove rc.1 rc.2).capacity
    omega

/-- `resolve_buy` keeps the capacity invariant: the price only removes
resources and the mole gain only raises capacity. -/
theorem resolve_buy_invcap (cfg : Config) (s : GameState) (sk : Option SpaceKind)
    (it : Option String) (aid : String) (s' : GameState) (ev : List DomainEvent)
    (h : resolve_buy cfg s sk it aid = .ok (s', ev)) (hs : InvCapOK s) : InvCapOK s' := by
  unfold resolve_buy at h
  split at h
  · cases h
  next sk' =>
    split at h
    · cases h
    next price hprice =>
      split at h
      · cases h
      next actor hfind =>
        simp only at h
        have hs1 := invcap_foldl_remove aid price s hs
        split at h
        · injection h with h
          obtain ⟨h1, -⟩ := Prod.mk.inj h
          subst h1
          exact invcap_update_pointwise _ aid _ hs1 (fun q hq => Nat.le_succ_of_le hq)
        · split at h
          · injection h with h
            obtain ⟨h1, -⟩ := Prod.mk.inj h
            subst h1
            exact invcap_update_pointwise _ aid _ hs1 (fun q hq => hq)
          · split at h
            · injection h with h
              obtain ⟨h1, -⟩ := Prod.mk.inj h
              subst h1
              exact invcap_update_pointwise _ aid _ hs1 (fun q hq => hq)
            · injection h with h
              obtain ⟨h1, -⟩ := Prod.mk.inj h
              subst h1
              exact hs1

/-- `resolve_steal` keeps the capacity invariant: the gains add no
resources and the punishment only moves a rat. -/
theorem resolve_steal_invcap (cfg : Config) (s : GameState) (sk : Option SpaceKind)
    (it pr : Option String) (aid : String) (s' : GameState) (ev : List DomainEvent)
    (h : resolve_steal cfg s sk it pr aid = .ok (s', ev)) (hs : InvCapOK s) : InvCapOK s' := by
  unfold resolve_steal at h
  split at h
  · cases h
  next actor hfind =>
    split at h
    · cases h
    next prv =>
      split at h
      · cases h
      next thief hthief =>
        simp only at h
        injection h with h
        obtain ⟨h1, -⟩ := Prod.mk.inj h
        subst h1
        refine invcap_update_pointwise _ aid _ ?_ (fun q hq => hq)
        split
        · exact invcap_update_pointwise s aid _ hs (fun q hq => Nat.le_succ_of_le hq)
        · split
          · exact invcap_update_pointwise s aid _ hs (fun q hq => hq)
          · split
            · exact invcap_update_pointwise s aid _ hs (fun q hq => hq)
            · exact hs

/-- `resolve_build` keeps the capacity invariant. -/
theorem resolve_build_invcap (cfg : Config) (s : GameState) (part : Option RocketPart)
    (aid : String) (s' : GameState) (ev : List DomainEvent)
    (h : resolve_build cfg s part aid = .ok (s', ev)) (hs : InvCapOK s) : InvCapOK s' := by
  unfold resolve_build at h
  split at h
  · cases h
  next part' =>
    split at h
    · cases h
    next cost hcost =>
      split at h
      · cases h
      next actor hfind =>
        simp only at h
        have hs1 := invcap_foldl_remove aid cost s hs
        have hs3 : InvCapOK (({ cost.foldl (fun st rc =>
            st.updatePlayer aid (fun p => { p with inv := p.inv.remove rc.1 rc.2 })) s with
              rocket := (cost.foldl (fun st rc => st.updatePlayer aid
                (fun p => { p with inv := p.inv.remove rc.1 rc.2 })) s).rocket.build_part
                  part' aid } : GameState).updatePlayer aid
              (fun p => { p with built_parts := addPart p.built_parts part' })) := by
          refine invcap_update_pointwise _ aid _ ?_ (fun q hq => hq)
          exact hs1
        split at h
        · split at h
          · cases h
          next actor4 hfind4 =>
            injection h with h
            obtain ⟨h1, -⟩ := Prod.mk.inj h
            subst h1
            exact invcap_update_pointwise _ aid _ hs3 (fun q hq => hq)
        · injection h with h
          obtain ⟨h1, -⟩ := Prod.mk.inj h
          subst h1
          exact hs3

/-- `resolve_donate` keeps the capacity invariant. -/
theorem resolve_donate_invcap (cfg : Config) (s : GameState) (amount : Option Int)
    (aid : String) (s' : GameState) (ev : List DomainEvent)
    (h : resolve_donate cfg s amount aid = .ok (s', ev)) (hs : InvCapOK s) : InvCapOK s' := by
  unfold resolve_donate at h
  split at h
  · cases h
  next amt =>
    split at h
    · cases h
    next points hpoints =>
      split at h
      · cases h
      next actor hfind =>
        simp only at h
        split at h
        · cases h
        next actor2 hfind2 =>
          injection h with h
          obtain ⟨h1, -⟩ := Prod.mk.inj h
          subst h1
          refine invcap_update_pointwise _ aid _ ?_ (fun q hq => hq)
          refine invcap_update_pointwise s aid _ hs ?_
          intro q hq
          have h1 := (remove_total_le q.inv .CHEESE amt.toNat).1
          have h2 := (remove_total_le q.inv .CHEESE amt.toNat).2
          show (q.inv.remove .CHEESE amt.toNat).total_resources ≤
            (q.inv.remove .CHEESE amt.toNat).capacity
          omega

/-- `next_player` keeps the capacity invariant (players unchanged). -/
theorem next_player_invcap (s : GameState) (hs : InvCapOK s) : InvCapOK s.next_player := by
  unfold GameState.next_player
  split
  · exact hs
  · exact hs

/-- `finalize_game` keeps the capacity invariant (players unchanged). -/
theorem finalize_invcap (s : GameState) (cfg : Config) (trigger : String)
    (hs : InvCapOK s) : InvCapOK (finalize_game s cfg trigger).1 := hs

/-- `check_and_trigger_endgame` keeps the capacity invariant. -/
theorem check_and_trigger_invcap (s : GameState) (cfg : Config) (s2 : GameState)
    (res : GameResults) (h : check_and_trigger_endgame s cfg = some (s2, res))
    (hs : InvCapOK s) : InvCapOK s2 := by
  unfold check_and_trigger_endgame at h
  split at h
  · cases h
  · split at h
    · injection h with h
      obtain ⟨h1, -⟩ := Prod.mk.inj h
      subst h1
      exact finalize_invcap s cfg _ hs
    · split at h
      · injection h with h
        obtain ⟨h1, -⟩ := Prod.mk.inj h
        subst h1
        exact finalize_invcap s cfg _ hs
      · cases h

/-- The endgame-check tail of `EffectResolver.apply` keeps the
capacity invariant whenever the per-action resolver does. -/
theorem withEndgame_invcap (cfg : Config) (base : PyResult (GameState × List DomainEvent))
    (s' : GameState) (ev : List DomainEvent)
    (h : (match base with
          | .exn m => .exn m
          | .ok (s1, events) =>
            match check_and_trigger_endgame s1 cfg with
            | some (s2, results) => .ok (s2, events ++ [results.game_ended_event])
            | none => PyResult.ok (s1, events)) = PyResult.ok (s', ev))
    (hbase : ∀ s1 ev1, base = .ok (s1, ev1) → InvCapOK s1) : InvCapOK s' := by
  split at h
  · cases h
  next s1 ev1 =>
    have hs1 := hbase s1 ev1 rfl
    split at h
    · next s2 res hend =>
      injection h with h
      obtain ⟨h1, -⟩ := Prod.mk.inj h
      subst h1
      exact check_and_trigger_invcap s1 cfg s2 res hend hs1
    · injection h with h
      obtain ⟨h1, -⟩ := Prod.mk.inj h
      subst h1
      exact hs1

/-- `EffectResolver.apply` keeps the capacity invariant for every
action kind. -/
theorem resolverApply_invcap (cfg : Config) (s : GameState) (a : Action) (aid : String)
    (s' : GameState) (ev : List DomainEvent)
    (h : resolverApply cfg s a aid = .ok (s', ev)) (hs : InvCapOK s) : InvCapOK s' := by
  cases a with
  | move moves =>
    unfold resolverApply at h
    simp only at h
    refine withEndgame_invcap cfg _ s' ev h ?_
    intro s1 ev1 hb
    split at hb
    · cases hb
    next s2 ev2 tr2 hmove =>
      injection hb with hb
      obtain ⟨h1, -⟩ := Prod.mk.inj hb
      subst h1
      exact resolveMoveGo_invcap cfg aid moves s s2 ev2 tr2 hmove hs
  | buy sk it pr =>
    unfold resolverApply at h
    simp only at h
    refine withEndgame_invcap cfg _ s' ev h ?_
    intro s1 ev1 hb
    exact resolve_buy_invcap cfg s sk it aid s1 ev1 hb hs
  | steal sk it pr =>
    unfold resolverApply at h
    simp only at h
    refine withEndgame_invcap cfg _ s' ev h ?_
    intro s1 ev1 hb
    exact resolve_steal_invcap cfg s sk it pr aid s1 ev1 hb hs
  | buildRocket part =>
    unfold resolverApply at h
    simp only at h
    refine withEndgame_invcap cfg _ s' ev h ?_
    intro s1 ev1 hb
    exact resolve_build_invcap cfg s part aid s1 ev1 hb hs
  | donateCheese amount =>
    unfold resolverApply at h
    simp only at h
    refine withEndgame_invcap cfg _ s' ev h ?_
    intro s1 ev1 hb
    exact resolve_donate_invcap cfg s amount aid s1 ev1 hb hs
  | endTurn =>
    unfold resolverApply at h
    simp only at h
    refine withEndgame_invcap cfg (resolve_end_turn s aid) s' ev h ?_
    intro s1 ev1 hb
    unfold resolve_end_turn at hb
    injection hb with hb
    obtain ⟨h1, -⟩ := Prod.mk.inj hb
    subst h1
    exact next_player_invcap s hs

/-- A successful `GameState.apply` keeps the capacity invariant. -/
theorem apply_invcap (cfg : Config) (s : GameState) (a : Action) (aid : String)
    (s' : GameState) (ev : List DomainEvent)
    (h : s.apply a aid cfg = .ok (s', ev)) (hs : InvCapOK s) : InvCapOK s' := by
  unfold GameState.apply at h
  split at h
  · cases h
  · cases h
  next derived hval =>
    split at h
    · cases h
    next s1 events heq =>
      simp only at h
      split at h
      · cases h
      · injection h with h
        obtain ⟨h1, -⟩ := Prod.mk.inj h
        subst h1
        exact resolverApply_invcap cfg s a aid s1 events heq hs

/-- A fresh `new_game` state satisfies the capacity invariant: every
player starts with an empty inventory. -/
theorem new_game_invcap (n : Nat) (names : List String) (cfg : Config) (seed : Int)
    (s : GameState) (h : new_game n names cfg seed = .ok s) : InvCapOK s := by
  unfold new_game at h
  split at h
  · cases h
  split at h
  · cases h
  split at h
  · cases h
  injection h with h
  subst h
  intro p hp
  obtain ⟨ia, -, rfl⟩ := List.mem_map.mp hp
  show (0 : Nat) ≤ cfg.starting_inventory_capacity
  exact Nat.zero_le _

/-- **C8**: in every game state reachable from a valid initial setup
through successful `apply` calls, every player's held resource total
is at most their inventory capacity; moreover any successfully
resolved action from such a state again satisfies the bound, so the
post-action invariant check never raises for the capacity condition. -/
theorem c8_inventory_capacity_invariant (cfg : Config) (s : GameState)
    (h : Reachable cfg s) :
    (∀ p ∈ s.players, p.inv.total_resources ≤ p.inv.capacity) ∧
    (∀ (a : Action) (actor_id : String) (s' : GameState) (events : List DomainEvent),
      resolverApply cfg s a actor_id = .ok (s', events) →
      ∀ p ∈ s'.players, p.inv.total_resources ≤ p.inv.capacity) := by
  have hmain : InvCapOK s := by
    induction h with
    | init n names seed s0 hng => exact new_game_invcap n names cfg seed s0 hng
    | step s0 a aid s1 ev hr happly ih => exact apply_invcap cfg s0 a aid s1 ev happly ih
  exact ⟨hmain, fun a aid s' ev hres => resolverApply_invcap cfg s a aid s' ev hres hmain⟩

/-- The state `new_game 2 ["A", "B"] {} 0` produces. -/
def exInit : GameState :=
  { board := ⟨[], 0, 59, none⟩
    players := [create_player "player_1" "A" {}, create_player "player_2" "B" {}]
    rocket := {} }

/-- Witness for C8 at a concrete reachable state: in the fresh
two-player game, the first player satisfies the capacity bound. -/
theorem c8_witness :
    (create_player "player_1" "A" {}).inv.total_resources ≤
      (create_player "player_1" "A" {}).inv.capacity :=
  (c8_inventory_capacity_invariant {} exInit
    (Reachable.init 2 ["A", "B"] 0 exInit (by rfl))).1
    (create_player "player_1" "A" {}) (by decide)

/-! ### C4 — resolver landing indices vs. validator derivation -/

/-- First on-board rat with the given id, in direct recursion (the
fused form of `Player.findBoardRat`). -/
def findBoardRatL : List Rat → String → Option Rat
  | [], _ => none
  | r :: t, rid => if !r.on_rocket && r.rat_id == rid then some r else findBoardRatL t rid

/-- `Player.findBoardRat` coincides with the fused recursion. -/
theorem findBoardRatL_spec (l : List Rat) (rid : String) :
    (l.filter (fun r => !r.on_rocket)).find? (fun r => r.rat_id == rid) =
      findBoardRatL l rid := by
  induction l with
  | nil => rfl
  | cons r t ih =>
    cases hon : r.on_rocket
    · rw [show List.filter (fun r => !r.on_rocket) (r :: t) =
        r :: List.filter (fun r => !r.on_rocket) t from by simp [List.filter_cons, hon]]
      cases hid : r.rat_id == rid
      · rw [List.find?_cons_of_neg _ (by simp [hid])]
        unfold findBoardRatL
        rw [hon, hid]
        simpa using ih
      · rw [List.find?_cons_of_pos _ (by simp [hid])]
        unfold findBoardRatL
        rw [hon, hid]
        rfl
    · rw [show List.filter (fun r => !r.on_rocket) (r :: t) =
        List.filter (fun r => !r.on_rocket) t from by simp [List.filter_cons, hon]]
      unfold findBoardRatL
      rw [hon]
      simpa using ih

/-- `Player.findBoardRat` via the fused recursion. -/
theorem findBoardRat_eq_L (p : Player) (rid : String) :
    p.findBoardRat rid = findBoardRatL p.rats rid :=
  findBoardRatL_spec p.rats rid

/-- Updating the first on-board rat of a DIFFERENT id leaves the
lookup unchanged, for any id-preserving update. -/
theorem findBoardRatL_update_ne (l : List Rat) (rid rid' : String) (f : Rat → Rat)
    (hid : ∀ r, (f r).rat_id = r.rat_id) (hne : ¬(rid' = rid)) :
    findBoardRatL (updateFirstBoardRat l rid f) rid' = findBoardRatL l rid' := by
  induction l with
  | nil => rfl
  | cons r t ih =>
    unfold updateFirstBoardRat
    by_cases hc : (!r.on_rocket : Bool) ∧ r.rat_id = rid
    · rw [if_pos hc]
      have h1 : ((f r).rat_id == rid') = false := by
        rw [hid r, hc.2]
        exact beq_false_of_ne (fun he => hne he.symm)
      have h2 : (r.rat_id == rid') = false := by
        rw [hc.2]
        exact beq_false_of_ne (fun he => hne he.symm)
      simp [findBoardRatL, h1, h2]
    · rw [if_neg hc]
      cases hcc : (!r.on_rocket && (r.rat_id == rid'))
      · simp [findBoardRatL, hcc, ih]
      · simp [findBoardRatL, hcc]

/-- An appended rat cannot shadow an existing first match. -/
theorem findBoardRatL_append_some (l : List Rat) (x r : Rat) (rid : String)
    (h : findBoardRatL l rid = some r) :
    findBoardRatL (l ++ [x]) rid = some r := by
  induction l with
  | nil => cases h
  | cons y t ih =>
    rw [List.cons_append]
    unfold findBoardRatL at h ⊢
    cases hcc : (!y.on_rocket && (y.rat_id == rid))
    · rw [hcc] at h
      simp only [Bool.false_eq_true, if_false] at h ⊢
      exact ih h
    · rw [hcc] at h
      simp only [if_true] at h ⊢
      exact h

/-- A found rat carries the id it was looked up by. -/
theorem findBoardRatL_id (l : List Rat) (rid : String) (r : Rat)
    (h : findBoardRatL l rid = some r) : r.rat_id = rid := by
  induction l with
  | nil => cases h
  | cons y t ih =>
    unfold findBoardRatL at h
    cases hcc : (!y.on_rocket && (y.rat_id == rid))
    · rw [hcc] at h
      simp only [Bool.false_eq_true, if_false] at h
      exact ih h
    · rw [hcc] at h
      simp only [if_true] at h
      injection h with h
      subst h
      exact eq_of_beq (Bool.and_elim_right hcc)

/-- Every rat id a `resolveMovingRats` success resolved is present in
the board-rat list. -/
theorem resolveMovingRats_isSome (br : List Rat) :
    ∀ (moves : List (String × Int)) (mrats : List (Rat × Int)),
      resolveMovingRats br moves = .ok mrats →
      ∀ rid ∈ moves.map Prod.fst, (br.find? (fun r => r.rat_id == rid)).isSome := by
  intro moves
  induction moves with
  | nil => intro mrats _ rid hrid; cases hrid
  | cons m rest ih =>
    intro mrats h rid hrid
    obtain ⟨rid0, st0⟩ := m
    unfold resolveMovingRats at h
    split at h
    · cases h
    next rat0 heq0 =>
      split at h
      · cases h
      next tail heqt =>
        rw [List.map_cons] at hrid
        rcases List.mem_cons.mp hrid with rfl | hmem
        · rw [heq0]; rfl
        · exact ih tail heqt rid hmem

/-- `_process_space_effects` leaves the board untouched and, for every
rat id other than the landing rat's that currently resolves on the
actor's board, leaves that lookup unchanged (inventory/track/score
effects do not touch rats; boarding flips only the landing rat; the
spawned rat is appended after any existing match). -/
theorem processSpaceEffects_rats (cfg : Config) (s : GameState) (aid : String)
    (rat : Rat) (sp : Space) (s2 : GameState) (ev : List DomainEvent)
    (actor1 : Player)
    (h : processSpaceEffects cfg s aid rat sp = .ok (s2, ev))
    (hfind : s.get_player_by_id aid = some actor1) :
    s2.board = s.board ∧ ∃ actor2, s2.get_player_by_id aid = some actor2 ∧
      ∀ rid', ¬(rid' = rat.rat_id) →
        (findBoardRatL actor1.rats rid').isSome →
        findBoardRatL actor2.rats rid' = findBoardRatL actor1.rats rid' := by
  obtain ⟨sid, sidx, scol, skind, spl⟩ := sp
  cases skind <;> simp only [processSpaceEffects] at h
  case RESOURCE =>
    match hres : spl.resource with
    | none => rw [hres] at h; cases h
    | some rtype =>
      rw [hres, hfind] at h
      simp only at h
      by_cases hx2 : actor1.inv.x2_active = true
      · rw [if_pos hx2, if_pos hx2, if_pos hx2] at h
        have hfind1 : (s.updatePlayer aid
            (fun p => { p with inv := { p.inv with x2_active := false } })).get_player_by_id aid
            = some { actor1 with inv := { actor1.inv with x2_active := false } } :=
          get_player_updatePlayer s aid _ actor1 hfind rfl
        rw [hfind1] at h
        simp only at h
        split at h
        · injection h with h
          obtain ⟨h1, -⟩ := Prod.mk.inj h
          subst h1
          refine ⟨rfl, _, get_player_updatePlayer _ aid _ _ hfind1 rfl, ?_⟩
          intro rid' _ _
          rfl
        · split at h
          · injection h with h
            obtain ⟨h1, -⟩ := Prod.mk.inj h
            subst h1
            refine ⟨rfl, _, get_player_updatePlayer _ aid _ _ hfind1 rfl, ?_⟩
            intro rid' _ _
            rfl
          · injection h with h
            obtain ⟨h1, -⟩ := Prod.mk.inj h
            subst h1
            exact ⟨rfl, _, hfind1, fun rid' _ _ => rfl⟩
      · rw [if_neg hx2, if_neg hx2, if_neg hx2, hfind] at h
        simp only at h
        split at h
        · injection h with h
          obtain ⟨h1, -⟩ := Prod.mk.inj h
          subst h1
          refine ⟨rfl, _, get_player_updatePlayer s aid _ actor1 hfind rfl, ?_⟩
          intro rid' _ _
          rfl
        · split at h
          · injection h with h
            obtain ⟨h1, -⟩ := Prod.mk.inj h
            subst h1
            refine ⟨rfl, _, get_player_updatePlayer s aid _ actor1 hfind rfl, ?_⟩
            intro rid' _ _
            rfl
          · injection h with h
            obtain ⟨h1, -⟩ := Prod.mk.inj h
            subst h1
            exact ⟨rfl, actor1, hfind, fun rid' _ _ => rfl⟩
  case LIGHTBULB_TRACK =>
    rw [hfind] at h
    simp only at h
    have hfind1 : (s.updatePlayer aid (fun p =>
        { p with tracks := addTrack p.tracks "lightbulb" (spl.track_gain.getD 1) })).get_player_by_id
        aid = some { actor1 with
          tracks := addTrack actor1.tracks "lightbulb" (spl.track_gain.getD 1) } :=
      get_player_updatePlayer s aid _ actor1 hfind rfl
    rw [hfind1] at h
    simp only at h
    split at h
    next pts hrew =>
      have hfind2 := get_player_updatePlayer _ aid
        (fun p => { p with score := p.score + pts }) _ hfind1 rfl
      rw [hfind2] at h
      injection h with h
      obtain ⟨h1, -⟩ := Prod.mk.inj h
      subst h1
      exact ⟨rfl, _, hfind2, fun rid' _ _ => rfl⟩
    next hother =>
      injection h with h
      obtain ⟨h1, -⟩ := Prod.mk.inj h
      subst h1
      exact ⟨rfl, _, hfind1, fun rid' _ _ => rfl⟩
  case LAUNCH_PAD =>
    by_cases hrk : rat.on_rocket = true
    · rw [if_pos hrk] at h
      injection h with h
      obtain ⟨h1, -⟩ := Prod.mk.inj h
      subst h1
      exact ⟨rfl, actor1, hfind, fun rid' _ _ => rfl⟩
    · rw [if_neg hrk] at h
      have hfind1 : (s.updatePlayer aid (fun p =>
          { p with rats := (updateFirstBoardRat p.rats rat.rat_id
              (fun r => { r with on_rocket := true })) })).get_player_by_id aid
          = some { actor1 with rats := (updateFirstBoardRat actor1.rats rat.rat_id
              (fun r => { r with on_rocket := true })) } :=
        get_player_updatePlayer s aid _ actor1 hfind rfl
      rw [hfind1] at h
      simp only at h
      have hflip : ∀ rid', ¬(rid' = rat.rat_id) →
          findBoardRatL (updateFirstBoardRat actor1.rats rat.rat_id
            (fun r => { r with on_rocket := true })) rid' = findBoardRatL actor1.rats rid' :=
        fun rid' hne => findBoardRatL_update_ne actor1.rats rat.rat_id rid' _
          (fun r => rfl) hne
      split at h
      · injection h with h
        obtain ⟨h1, -⟩ := Prod.mk.inj h
        subst h1
        refine ⟨rfl, _, get_player_updatePlayer _ aid _ _ hfind1 rfl, ?_⟩
        intro rid' hne hsome
        obtain ⟨r, hr⟩ := Option.isSome_iff_exists.mp hsome
        have hval : findBoardRatL (updateFirstBoardRat actor1.rats rat.rat_id
            (fun r => { r with on_rocket := true })) rid' = some r := by
          rw [hflip rid' hne, hr]
        show findBoardRatL ((updateFirstBoardRat actor1.rats rat.rat_id
            (fun r => { r with on_rocket := true })) ++ [_]) rid' = _
        rw [findBoardRatL_append_some _ _ r rid' hval, hr]
      · injection h with h
        obtain ⟨h1, -⟩ := Prod.mk.inj h
        subst h1
        exact ⟨rfl, _, hfind1, fun rid' hne _ => hflip rid' hne⟩
  all_goals
    injection h with h
    obtain ⟨h1, -⟩ := Prod.mk.inj h
    subst h1
    exact ⟨rfl, actor1, hfind, fun rid' _ _ => rfl⟩

/-- A player owning only rat A at index 0. -/
def exPlayerA : Player := ⟨"p1", "Alice", [exRatA], {}, [], 0, []⟩

/-- State around `exPlayerA`. -/
def exStateA : GameState := { board := exBoard, players := [exPlayerA], rocket := {} }

/-- Rat B at index 4. -/
def exRatB4 : Rat := ⟨"B", "p1", 4, false⟩

/-- A player owning rats A (index 0) and B (index 4). -/
def exPlayerAB4 : Player := ⟨"p1", "Alice", [exRatA, exRatB4], {}, [], 0, []⟩

/-- State around `exPlayerAB4`. -/
def exStateAB4 : GameState := { board := exBoard, players := [exPlayerAB4], rocket := {} }

/-- The `resolve_move` loop's recomputed landing indices equal the
validator's derivation, for moves with pairwise distinct rat ids:
processing in submission order never moves a rat that a later entry
names, so each recomputation reads the pre-move position the
validator used. -/
theorem resolveMoveGo_trace (cfg : Config) (aid : String) (b0 : Board) (actor0 : Player) :
    ∀ (moves : List (String × Int)) (mrats : List (Rat × Int))
      (landings : List (String × Nat × Color)) (s : GameState) (actor : Player)
      (s' : GameState) (ev : List DomainEvent) (tr : List (String × Nat)),
      s.board = b0 →
      s.get_player_by_id aid = some actor →
      resolveMovingRats actor0.get_rats_on_board moves = .ok mrats →
      computeLandings b0 mrats = some landings →
      (moves.map Prod.fst).Nodup →
      (∀ rid ∈ moves.map Prod.fst,
        findBoardRatL actor.rats rid = findBoardRatL actor0.rats rid) →
      resolveMoveGo cfg aid s moves = .ok (s', ev, tr) →
      tr = landings.map (fun l => (l.1, l.2.1)) := by
  intro moves
  induction moves with
  | nil =>
    intro mrats landings s actor s' ev tr hb hf hrm hcl hnd hinv h
    unfold resolveMovingRats at hrm
    injection hrm with hrm
    subst hrm
    unfold computeLandings at hcl
    injection hcl with hcl
    subst hcl
    unfold resolveMoveGo at h
    injection h with h
    obtain ⟨-, h23⟩ := Prod.mk.inj h
    obtain ⟨-, h3⟩ := Prod.mk.inj h23
    subst h3
    rfl
  | cons m rest ih =>
    intro mrats landings s actor s' ev tr hb hf hrm hcl hnd hinv h
    obtain ⟨rid, steps⟩ := m
    unfold resolveMovingRats at hrm
    split at hrm
    · cases hrm
    next rat0 heq0 =>
      split at hrm
      · cases hrm
      next mtail heqm =>
        injection hrm with hrm
        subst hrm
        unfold computeLandings at hcl
        simp only at hcl
        split at hcl
        · cases hcl
        next sp hsp =>
          rw [Option.map_eq_some'] at hcl
          obtain ⟨ltail, hltail, hlands⟩ := hcl
          subst hlands
          unfold resolveMoveGo at h
          split at h
          · cases h
          next s1 evts ni heq1 =>
            split at h
            · cases h
            next s2 ev2 tr2 heq2 =>
              injection h with h
              obtain ⟨h1, h23⟩ := Prod.mk.inj h
              obtain ⟨h2, h3⟩ := Prod.mk.inj h23
              subst h3
              subst h1
              unfold resolveOneMove at heq1
              rw [hf] at heq1
              simp only at heq1
              have hratL0 : findBoardRatL actor0.rats rid = some rat0 := by
                rw [← findBoardRatL_spec]
                exact heq0
              have hratval : actor.findBoardRat rid = some rat0 := by
                rw [findBoardRat_eq_L, hinv rid (by simp), hratL0]
              rw [hratval] at heq1
              simp only at heq1
              rw [updatePlayer_board, hb, hsp] at heq1
              simp only at heq1
              split at heq1
              · cases heq1
              next s2' spev heqp =>
                injection heq1 with heq1
                obtain ⟨hh1, hh23⟩ := Prod.mk.inj heq1
                obtain ⟨hh2, hh3⟩ := Prod.mk.inj hh23
                subst hh3
                subst hh1
                have hr0id : rat0.rat_id = rid := findBoardRatL_id actor0.rats rid rat0 hratL0
                have hfindu := get_player_updatePlayer s aid
                  (fun p => { p with rats := (updateFirstBoardRat p.rats rid
                    (fun r => { r with space_index := b0.next_index rat0.space_index steps })) })
                  actor hf rfl
                obtain ⟨hb2, actor2, hfind2, hpres⟩ :=
                  processSpaceEffects_rats cfg _ aid _ sp _ spev _ heqp hfindu
                have hb2' : s2'.board = b0 := by
                  rw [hb2, updatePlayer_board, hb]
                rw [List.map_cons] at hnd
                have hndtail := (List.nodup_cons.mp hnd).2
                have hheadnot := (List.nodup_cons.mp hnd).1
                have hinv2 : ∀ rid' ∈ rest.map Prod.fst,
                    findBoardRatL actor2.rats rid' = findBoardRatL actor0.rats rid' := by
                  intro rid' hmem
                  have hne : ¬(rid' = rid) := fun hcontra => hheadnot (hcontra ▸ hmem)
                  have hA : findBoardRatL (updateFirstBoardRat actor.rats rid
                      (fun r => { r with space_index := b0.next_index rat0.space_index steps }))
                      rid' = findBoardRatL actor.rats rid' :=
                    findBoardRatL_update_ne actor.rats rid rid' _ (fun r => rfl) hne
                  have hvals : findBoardRatL actor.rats rid' = findBoardRatL actor0.rats rid' :=
                    hinv rid' (by simp [hmem])
                  have hsome0 : (findBoardRatL actor0.rats rid').isSome := by
                    have hi := resolveMovingRats_isSome actor0.get_rats_on_board rest mtail
                      heqm rid' hmem
                    rwa [show actor0.get_rats_on_board.find? (fun r => r.rat_id == rid') =
                      findBoardRatL actor0.rats rid' from findBoardRatL_spec actor0.rats rid'] at hi
                  have hsomeu : (findBoardRatL (updateFirstBoardRat actor.rats rid
                      (fun r => { r with space_index := b0.next_index rat0.space_index steps }))
                      rid').isSome := by
                    rw [hA, hvals]
                    exact hsome0
                  have hne2 : ¬(rid' = rat0.rat_id) := fun hcontra => hne (hcontra.trans hr0id)
                  have hp := hpres rid' hne2 hsomeu
                  rw [hp]
                  show findBoardRatL (updateFirstBoardRat actor.rats rid
                    (fun r => { r with space_index := b0.next_index rat0.space_index steps }))
                    rid' = findBoardRatL actor0.rats rid'
                  rw [hA, hvals]
                rw [List.map_cons]
                have htail := ih mtail ltail s2' actor2 s2 ev2 tr2 hb2' hfind2 heqm hltail
                  hndtail hinv2 heq2
                rw [htail, hr0id]

/-- Inversion of a successful `validate_move`: the accepted derived
data is exactly the landing list computed from the pre-move state. -/
theorem validateMove_ok_inv (s : GameState) (moves : List (String × Int)) (aid : String)
    (lp : List (String × Nat)) (col : Color) (mr : List (String × Nat × Int))
    (h : validateMove s moves aid = .ok (.moveData lp col mr)) :
    ∃ actor mrats landings,
      s.get_player_by_id aid = some actor ∧
      resolveMovingRats actor.get_rats_on_board moves = .ok mrats ∧
      computeLandings s.board mrats = some landings ∧
      lp = landings.map (fun l => (l.1, l.2.1)) := by
  unfold validateMove at h
  split at h
  · cases h
  split at h
  · cases h
  next actor hfind =>
    simp only at h
    split at h
    · cases h
    split at h
    · cases h
    next mrats hres =>
      split at h
      · cases h
      next landings hland =>
        split at h
        · cases h
        next l0 ls =>
          split at h
          · cases h
          split at h
          · cases h
          split at h
          · injection h with h
            injection h with h1 h2 h3
            exact ⟨actor, mrats, l0 :: ls, hfind, hres, hland, h1.symm⟩
          · cases h

/-- **C4** (counterexample to the claim as stated): the validator
accepts the duplicate-id submission `[(A,1),(A,2)]` (landings 1 and 2
from A's pre-move position 0), but the resolver, reading A's position
at each step, recomputes landings 1 and then 3 — the second landing
differs from the validator's derivation. -/
theorem c4_counterexample :
    validateMove exStateA [("A", 1), ("A", 2)] "p1" =
      .ok (.moveData [("A", 1), ("A", 2)] .GREEN [("A", 0, 1), ("A", 0, 2)]) ∧
    (match resolve_move {} exStateA [("A", 1), ("A", 2)] "p1" with
      | .ok (_, _, tr) => some tr
      | .exn _ => none) = some [("A", 1), ("A", 3)] ∧
    ¬([("A", 1), ("A", 3)] = [("A", 1), ("A", 2)]) := by
  decide

/-- **C4** (amended: for accepted submissions whose rat ids are
pairwise distinct — with a duplicated rat id the two computations can
differ, see the counterexample): the landing-index trace the resolver
recomputes, processing entries in submission order and reading each
rat's position at that moment, equals the validator's derived
`landing_positions`. -/
theorem c4_resolver_landings_match_validator (cfg : Config) (s : GameState)
    (moves : List (String × Int)) (aid : String) (lp : List (String × Nat)) (col : Color)
    (mr : List (String × Nat × Int)) (s' : GameState) (ev : List DomainEvent)
    (tr : List (String × Nat))
    (hval : validateMove s moves aid = .ok (.moveData lp col mr))
    (hnd : (moves.map Prod.fst).Nodup)
    (hres : resolve_move cfg s moves aid = .ok (s', ev, tr)) :
    tr = lp := by
  obtain ⟨actor, mrats, landings, hfind, hrm, hcl, hlp⟩ :=
    validateMove_ok_inv s moves aid lp col mr hval
  rw [hlp]
  exact resolveMoveGo_trace cfg aid s.board actor moves mrats landings s actor s' ev tr
    rfl hfind hrm hcl hnd (fun rid _ => rfl) hres

/-- The state `resolve_move` produces in the C4 witness run. -/
def exStateAB4after : GameState :=
  { board := exBoard
    players := [⟨"p1", "Alice", [⟨"A", "p1", 2, false⟩, ⟨"B", "p1", 6, false⟩],
      { capacity := 3, res := [(.CHEESE, 2)] }, [], 0, []⟩]
    rocket := {} }

/-- Witness for C4: the distinct-id move `[(A,2),(B,2)]` from A at 0
and B at 4 resolves with trace `[(A,2),(B,6)]`, equal to the
validator's derived landing positions. -/
theorem c4_witness : ([("A", 2), ("B", 6)] : List (String × Nat)) = [("A", 2), ("B", 6)] :=
  c4_resolver_landings_match_validator {} exStateAB4 [("A", 2), ("B", 2)] "p1"
    [("A", 2), ("B", 6)] .GREEN [("A", 0, 2), ("B", 4, 2)] exStateAB4after
    [create_resource_gained_event "p1" .CHEESE 1 "space",
     create_resource_gained_event "p1" .CHEESE 1 "space"]
    [("A", 2), ("B", 6)] (by decide) (by decide) (by decide)

end FirstRat
